import Mathlib

/-
  Verification development for the per-call conversation state machine of the
  Ahad & Co voice-agent server (Express/Twilio webhook application).

  The embedding below is a shallow model of the primary server variant
  (src/unnamed/part_006, first embedded document, lines 1-1130; the same
  handlers appear, sometimes in older form, in src/index.js).  Strings are
  modelled as lists of characters; JavaScript regular-expression tests used by
  the code are modelled by explicit decidable substring / token matchers over
  the ASCII fragment actually exercised by the patterns (JS \s and the dot
  metacharacter also cover some rarely produced Unicode characters; the model
  restricts them to their ASCII members, which is exact on all inputs used
  by the theorems below).  External effects (the LLM completion, the intent
  oracle, the calendar query) are supplied as explicit turn inputs.
-/

namespace AhadVoice

/-- Strings are modelled as lists of characters. -/
abbrev Str := List Char

/-- The apostrophe character (U+0027), used inside several pattern words. -/
def apos : Char := Char.ofNat 39

/-- ASCII members of the JavaScript whitespace class used by trim and by \s. -/
def isJsWS (c : Char) : Bool :=
  c = ' ' || c = '\t' || c = '\n' || c = '\r' || c = Char.ofNat 11 || c = Char.ofNat 12

/-- Decimal digit test, modelling the \d class and its complement \D. -/
def isDigitCh (c : Char) : Bool :=
  '0' ≤ c && c ≤ '9'

/-- Word characters for the regex word boundary \b (ASCII fragment). -/
def isWordCh (c : Char) : Bool :=
  ('a' ≤ c && c ≤ 'z') || ('A' ≤ c && c ≤ 'Z') || isDigitCh c || c = '_'

/-- ASCII lower-casing of a character, modelling String.prototype.toLowerCase. -/
def lowerCh (c : Char) : Char :=
  if 'A' ≤ c && c ≤ 'Z' then Char.ofNat (c.toNat + 32) else c

/-- Lower-case a whole string. -/
def toLower (s : Str) : Str := s.map lowerCh

/-- Model of String.prototype.trim: drop whitespace on both ends. -/
def trim (s : Str) : Str :=
  ((s.dropWhile isJsWS).reverse.dropWhile isJsWS).reverse

/-- Substring containment: models regex.test for a single literal word. -/
def containsSub (w : Str) : Str → Bool
  | [] => w.isEmpty
  | c :: r => w.isPrefixOf (c :: r) || containsSub w r

/-- Disjunction of literal-word substring tests: models an alternation
regex such as (no|nope|not).test(s). -/
def containsAny (ws : List Str) (s : Str) : Bool :=
  ws.any (fun w => containsSub w s)

/-- After a left fragment has matched, scan forward over non-newline
characters (the regex dot) for the right fragment: the tail of a
pattern of the form a.*b. -/
def seekGap (b : Str) : Str → Bool
  | [] => b.isEmpty && false
  | c :: r => b.isPrefixOf (c :: r) || (!(c = '\n' || c = '\r') && seekGap b r)

/-- Model of a pattern of the form a.*b (two literals separated by the
greedy any-character gap): some occurrence of a followed, after zero or
more non-newline characters, by b. -/
def containsGap (a b : Str) : Str → Bool
  | [] => false
  | c :: r =>
    (a.isPrefixOf (c :: r) &&
      (b.isPrefixOf ((c :: r).drop a.length) || seekGap b ((c :: r).drop a.length)))
    || containsGap a b r

/-- Right context accepted after an acceptance token:
end of string or one of whitespace, period, comma, exclamation mark. -/
def tokenEndOk : Str → Bool
  | [] => true
  | c :: _ => isJsWS c || c = '.' || c = ',' || c = '!'

/-- Does one of the listed token words match at the head of s with an
accepted right context afterwards? -/
def tokenAt (ws : List Str) (s : Str) : Bool :=
  ws.any (fun w => w.isPrefixOf s && tokenEndOk (s.drop w.length))

/-- Scan interior positions: a token may start right after a whitespace
character. -/
def tokenScanAux (ws : List Str) : Str → Bool
  | [] => false
  | c :: r => (isJsWS c && tokenAt ws r) || tokenScanAux ws r

/-- Model of the anchored acceptance regex
(^|\s)(word1|word2|...)($|[\s.,!]): a token occurrence bounded on the
left by start-of-string or whitespace and on the right by end-of-string
or light punctuation. -/
def tokenBounded (ws : List Str) (s : Str) : Bool :=
  tokenAt ws s || tokenScanAux ws s

/-- Left context for a word-boundary match. -/
def wordBdL : Option Char → Bool
  | none => true
  | some c => !isWordCh c

/-- Right context for a word-boundary match. -/
def wordBdR : Str → Bool
  | [] => true
  | c :: _ => !isWordCh c

/-- Fuel-indexed worker for the global word-bounded replacement
s.replace(/\bword\b/g, r).  The word is split as first character c0 and
tail w; lastc is its final character, kept as left context after a
match (the scanner resumes right after the matched text of the original
string).  Fuel bounds recursion; it is always called with enough fuel. -/
def replWBGo (c0 : Char) (w : Str) (lastc : Char) (r : Str) :
    Nat → Option Char → Str → Str
  | 0, _, s => s
  | _ + 1, _, [] => []
  | fuel + 1, prev, c :: rest =>
    if (c0 :: w).isPrefixOf (c :: rest) && wordBdL prev &&
        wordBdR ((c :: rest).drop (w.length + 1)) then
      r ++ replWBGo c0 w lastc r fuel (some lastc) ((c :: rest).drop (w.length + 1))
    else
      c :: replWBGo c0 w lastc r fuel (some c) rest

/-- Global word-bounded replacement s.replace(/\bword\b/g, r). -/
def replWB (c0 : Char) (w : Str) (lastc : Char) (r : Str) (s : Str) : Str :=
  replWBGo c0 w lastc r s.length none s

/-- Worker for whitespace collapsing: prevWS records whether the previous
character belonged to the current whitespace run. -/
def collapseGo : Bool → Str → Str
  | _, [] => []
  | prevWS, c :: r =>
    if isJsWS c then
      if prevWS then collapseGo true r else ' ' :: collapseGo true r
    else c :: collapseGo false r

/-- Model of s.replace(/\s+/g, ' '): each maximal whitespace run becomes a
single space. -/
def collapseWS (s : Str) : Str := collapseGo false s

/-- Case-insensitive anchored prefix test (the alternatives of the
anchored clean-up regexes are all lower case). -/
def ciStarts (a s : Str) : Bool := a.isPrefixOf (toLower s)

/-- Model of s.replace(/^(alt1|alt2|...)\s*/i, ''): if some alternative
matches at the start (first alternative in regex order wins), drop it
together with the following whitespace. -/
def stripLead (alts : List Str) (s : Str) : Str :=
  match alts.find? (fun a => ciStarts a s) with
  | some a => (s.drop a.length).dropWhile isJsWS
  | none => s

/-- Model of s.replace(/[.,!?]$/g, ''): remove one trailing light
punctuation character. -/
def stripTrailPunct (s : Str) : Str :=
  match s.reverse with
  | [] => s
  | c :: r => if c = '.' || c = ',' || c = '!' || c = '?' then r.reverse else s

/-- Model of s.replace(/\.+$/g, ''): remove all trailing periods. -/
def stripTrailDots (s : Str) : Str :=
  (s.reverse.dropWhile (fun c => c = '.')).reverse

/-- Model of s.replace(/\D/g, ''): keep the digits only. -/
def digitsOf (s : Str) : Str := s.filter isDigitCh

/-- Scan for a period preceded only by non-newline characters: tail of
the validation regex @.+\. after its first mandatory character. -/
def seekDotNoNL : Str → Bool
  | [] => false
  | c :: r => c = '.' || (!(c = '\n' || c = '\r') && seekDotNoNL r)

/-- Model of the validation test s.match(/@.+\./): an at sign followed by
at least one (non-newline) character and then a period. -/
def atDotTest : Str → Bool
  | [] => false
  | c :: r =>
    (c = '@' &&
      (match r with
       | [] => false
       | d :: r2 => !(d = '\n' || d = '\r') && seekDotNoNL r2))
    || atDotTest r

/-! ### Pattern word lists (from the regex literals of the source) -/

/-- Conversation-prefix alternatives of the anchored regex
(sure,?|okay,?|yes,?|yeah,?|um,?|uh,?) followed by \s*; the greedy
optional comma expands each alternative into a comma form tried first. -/
def fillerAlts : List Str :=
  ["sure,".data, "sure".data, "okay,".data, "okay".data, "yes,".data, "yes".data,
   "yeah,".data, "yeah".data, "um,".data, "um".data, "uh,".data, "uh".data]

/-- Alternatives of the anchored name-introduction regex
(my (first|last) name is|my name is|it's|i'm|this is|the name is). -/
def nameIntroAlts : List Str :=
  ["my first name is".data, "my last name is".data, "my name is".data,
   "it".data ++ apos :: "s".data, "i".data ++ apos :: "m".data,
   "this is".data, "the name is".data]

/-- Alternatives of the anchored email-introduction regex
(my email( address)? is|it's|the email is). -/
def emailIntroAlts : List Str :=
  ["my email address is".data, "my email is".data,
   "it".data ++ apos :: "s".data, "the email is".data]

/-! ### Field extractors (part_006 first document, lines 180-237) -/

/-- extractName (part_006 lines 180-208): strip filler and
name-introduction prefixes, one trailing punctuation mark, collapse
whitespace; reject when more than five space-separated words, when a
question mark is present, or when shorter than two characters. -/
def extractName (speech : Str) : Str :=
  let name := trim speech
  let name := stripLead fillerAlts name
  let name := stripLead nameIntroAlts name
  let name := stripTrailPunct name
  let name := (collapseWS name |> trim)
  if name.count ' ' + 1 > 5 || name.contains '?' then []
  else if name.length < 2 then []
  else name

/-- Normalisation pipeline of extractEmail (part_006 lines 211-228):
lower-case and trim, strip prefixes, delete all whitespace, replace the
word-bounded words at and dot by their symbols, drop trailing periods. -/
def emailNormalize (speech : Str) : Str :=
  let e := trim (toLower speech)
  let e := stripLead fillerAlts e
  let e := stripLead emailIntroAlts e
  let e := e.filter (fun c => !isJsWS c)
  let e := replWB 'a' ("t".data) 't' ("@".data) e
  let e := replWB 'd' ("ot".data) 't' (".".data) e
  stripTrailDots e

/-- extractEmail (part_006 lines 211-237): the normalised candidate is
accepted only when it contains an at sign AND a period after the at
sign with at least one character in between (validation regexes /@/ and
/@.+\./); otherwise the empty string is returned. -/
def extractEmail (speech : Str) : Str :=
  let e := emailNormalize speech
  if e.contains '@' && atDotTest e then e else []

/-! ### Intent vocabulary and keyword classifier (part_006 lines 148-177) -/

/-- Intent labels: the oracle subset (appointment, message,
speak_to_person, unclear) together with the keyword-only labels
(inquiry, office_hours_question, callback). -/
inductive Intent
  | appointment
  | message
  | speak_to_person
  | unclear
  | inquiry
  | office_hours_question
  | callback
deriving DecidableEq

/-- Inquiry keyword alternatives. -/
def inquiryWords : List Str :=
  ["inquir".data, "question".data, "information".data, "tell me about".data,
   "what do you".data, "ask about".data, "tax services".data, "speak to".data,
   "talk to".data, "someone".data, "person".data, "representative".data,
   "human".data, "give me a name".data, "looking for".data]

/-- Office-hours keyword alternatives (the when.*open alternative is a
gapped pattern and is tested separately). -/
def officeHoursWords : List Str :=
  ["office hours".data, "what time".data, "hours".data, "open".data,
   "times".data, "available times".data]

/-- Appointment keyword alternatives (make.*appointment is gapped). -/
def appointmentWords : List Str :=
  ["appointment".data, "book".data, "schedule".data, "consultation".data,
   "set up".data, "meeting".data, "slot".data]

/-- Callback keyword alternatives. -/
def callbackWords : List Str :=
  ["i".data ++ apos :: "ll call back".data, "call you back".data,
   "call back later".data, "i will call back".data, "calling back".data]

/-- detectIntentByKeywords (part_006 lines 148-177): fixed precedence
inquiry, office-hours, appointment, callback, message, unclear. -/
def detectIntentByKeywords (speech : Str) : Intent :=
  let lower := toLower speech
  if containsAny inquiryWords lower then .inquiry
  else if containsAny officeHoursWords lower || containsGap ("when".data) ("open".data) lower then
    .office_hours_question
  else if containsAny appointmentWords lower || containsGap ("make".data) ("appointment".data) lower then
    .appointment
  else if containsAny callbackWords lower then .callback
  else if containsSub ("message".data) lower
       || containsGap ("leave".data) ("message".data) lower
       || containsGap ("voice".data) ("mail".data) lower then .message
  else .unclear

/-! ### Slots and slot-acceptance detection (part_006 lines 121-145) -/

/-- A candidate appointment slot as the negotiator sees it: the
machine-readable timestamp and the human-speakable rendering. -/
structure Slot where
  iso : Str
  displayText : Str
deriving DecidableEq

/-- Ordinal alternatives for the five offered positions. -/
def ordinalWords : List (List Str) :=
  [["first".data, "1".data, "one".data],
   ["second".data, "2".data, "two".data],
   ["third".data, "3".data, "three".data],
   ["fourth".data, "4".data, "four".data],
   ["fifth".data, "5".data, "five".data]]

/-- Acceptance token alternatives of the anchored acceptance regex. -/
def acceptTokens : List Str :=
  ["yes".data, "yeah".data, "sure".data, "ok".data, "okay".data,
   "that works".data, "sounds good".data, "perfect".data,
   "works for me".data, "either".data, "both".data, "any".data]

/-- Rejection alternatives inside detectSlotAcceptance. -/
def slotRejectWords : List Str :=
  ["no".data, "nope".data, "not".data, "don".data ++ apos :: "t".data,
   "none".data, "neither".data]

/-- detectSlotAcceptance (part_006 lines 121-145): ordinal selection of a
specific offered slot, then a token-bounded generic acceptance of the
first slot; the explicit-rejection check and the fall-through both
return no slot. -/
def detectSlotAcceptance (speech : Str) (offered : List Slot) : Option Slot :=
  if offered.isEmpty then none
  else
    let lower := trim (toLower speech)
    if containsAny (ordinalWords.get! 0) lower && 0 < offered.length then offered[0]?
    else if containsAny (ordinalWords.get! 1) lower && 1 < offered.length then offered[1]?
    else if containsAny (ordinalWords.get! 2) lower && 2 < offered.length then offered[2]?
    else if containsAny (ordinalWords.get! 3) lower && 3 < offered.length then offered[3]?
    else if containsAny (ordinalWords.get! 4) lower && 4 < offered.length then offered[4]?
    else if tokenBounded acceptTokens lower then offered[0]?
    else if containsAny slotRejectWords lower then none
    else none

/-! ### Conversation record and turn input (part_006 lines 254-312) -/

/-- The flow_state values occurring in the first document of part_006. -/
inductive FlowState
  | greeting
  | awaiting_intent
  | intent_clarification
  | inquiry_intent
  | office_hours_message
  | office_hours_question
  | office_hours_declined
  | calendar_check
  | offer_slots
  | ask_preferred_time
  | message_fallback_intro
  | appointment_first_name
  | appointment_last_name
  | appointment_phone
  | appointment_email
  | appointment_email_confirm
  | appointment_previous_client
  | appointment_welcome_back
  | appointment_referral
  | appointment_call_reason
  | appointment_confirm
  | appointment_complete
  | message_first_name
  | message_last_name
  | message_phone
  | message_email
  | message_email_confirm
  | message_content
  | message_confirm
  | message_complete
  | callback_end
deriving DecidableEq

/-- Speaker role of one history entry. -/
inductive Role
  | user
  | assistant
deriving DecidableEq

/-- One history entry. -/
structure Msg where
  role : Role
  content : Str
deriving DecidableEq

/-- The per-call conversation record (the conversationMemory entry
initialised at part_006 lines 266-310). -/
structure Memory where
  intent : Option Intent
  flow_state : FlowState
  slot_offer_attempt : Nat
  offered_slots : List Slot
  user_preferred_time : Option Str
  selected_slot : Option Str
  selected_slot_iso : Option Str
  first_name : Option Str
  last_name : Option Str
  email : Option Str
  phone : Option Str
  previous_client : Option Str
  referral_source : Option Str
  call_reason : Option Str
  message_content : Option Str
  email_spelled : Option Str
  email_confirmation_stage : Option Str
  first_name_retry : Nat
  last_name_retry : Nat
  email_retry : Nat
  phone_retry : Nat
  greeting_done : Bool
  booking_completed : Bool
  message_sent : Bool
  conversation_ended : Bool
  history : List Msg
deriving DecidableEq

/-- The fresh record created on a call's first turn. -/
def initialMemory : Memory where
  intent := none
  flow_state := .greeting
  slot_offer_attempt := 0
  offered_slots := []
  user_preferred_time := none
  selected_slot := none
  selected_slot_iso := none
  first_name := none
  last_name := none
  email := none
  phone := none
  previous_client := none
  referral_source := none
  call_reason := none
  message_content := none
  email_spelled := none
  email_confirmation_stage := none
  first_name_retry := 0
  last_name_retry := 0
  email_retry := 0
  phone_retry := 0
  greeting_done := false
  booking_completed := false
  message_sent := false
  conversation_ended := false
  history := []

/-- The external inputs of one /voice turn: the transcribed speech, the
outcome of the main LLM completion (llmOk false models a thrown
request, agentText the returned text after the forbidden-word filter),
the regeneration completion, the intent oracle (some i models a
successful classification whose confidence exceeded 0.6; none models a
low-confidence or failed classification, which falls back to the
keyword matcher), and the calendar availability response (none models a
null response or a query error). -/
structure TurnInput where
  speech : Str
  llmOk : Bool
  agentText : Str
  regenOk : Bool
  regenText : Str
  oracleIntent : Option Intent
  calSlots : Option (List Slot)

/-- Truthiness gate of the state machine:
userSpeech is non-empty and trims to a non-empty string. -/
def speechActive (s : Str) : Bool := !s.isEmpty && !(trim s).isEmpty

/-! ### Per-turn phases of the /voice handler (part_006 lines 316-1126) -/

/-- History bookkeeping (lines 362-365): push the user utterance when
present, then always push the assistant text. -/
def pushHist (m : Memory) (inp : TurnInput) : Memory :=
  { m with history :=
      m.history ++ (if inp.speech.isEmpty then [] else [⟨.user, inp.speech⟩])
        ++ [⟨.assistant, inp.agentText⟩] }

/-- Greeting transition (lines 368-372): after the first response the
greeting is marked done and the state moves to awaiting_intent. -/
def greetingStep (m : Memory) : Memory :=
  if m.flow_state = .greeting ∧ m.greeting_done = false then
    { m with greeting_done := true, flow_state := .awaiting_intent }
  else m

/-- Resolution of a calendar query (shared by lines 377-392 and
569-583): non-empty slot list moves to offer_slots, anything else to
message_fallback_intro. -/
def calCheckResolve (m : Memory) (slots : Option (List Slot)) : Memory :=
  match slots with
  | some ss =>
    if 0 < ss.length then { m with offered_slots := ss, flow_state := .offer_slots }
    else { m with flow_state := .message_fallback_intro }
  | none => { m with flow_state := .message_fallback_intro }

/-- Pre-state-machine calendar check (lines 377-392), which runs even on
a silent turn once any history exists. -/
def calendarPre (m : Memory) (slots : Option (List Slot)) : Memory :=
  if m.flow_state = .calendar_check ∧ 0 < m.history.length then
    calCheckResolve m slots
  else m

/-- Routing shared by intent detection (lines 447-472). -/
def routeIntent (m : Memory) (i : Intent) : Memory :=
  match i with
  | .inquiry => { m with intent := some i, flow_state := .inquiry_intent }
  | .speak_to_person => { m with intent := some i, flow_state := .inquiry_intent }
  | .office_hours_question => { m with intent := some i, flow_state := .office_hours_question }
  | .appointment => { m with intent := some i, flow_state := .calendar_check }
  | .message => { m with intent := some i, flow_state := .message_first_name }
  | .callback => { m with intent := some i, flow_state := .callback_end, conversation_ended := true }
  | .unclear => { m with intent := some i, flow_state := .intent_clarification }

/-- Intent detection from greeting or awaiting_intent (lines 399-473):
the oracle result is used when its confidence exceeded the threshold,
otherwise the keyword fallback. -/
def stepIntent (m : Memory) (inp : TurnInput) : Memory :=
  routeIntent m
    (match inp.oracleIntent with
     | some i => i
     | none => detectIntentByKeywords inp.speech)

/-- Intent clarification (lines 476-504): keyword-only re-detection;
a still-unclear response defaults to the appointment path. -/
def stepClarify (m : Memory) (sp : Str) : Memory :=
  match detectIntentByKeywords sp with
  | .unclear => { m with intent := some .appointment, flow_state := .calendar_check }
  | i => routeIntent m i

/-- Affirmative words of the office-hours-message handler. -/
def ohmYesWords : List Str :=
  ["yes".data, "yeah".data, "sure".data, "ok".data, "okay".data,
   "alright".data, "message".data, "please".data]

/-- Negative words of the office-hours-message handler. -/
def ohmNoWords : List Str :=
  ["no".data, "nope".data, "not".data, "call back".data, "later".data,
   "goodbye".data, "bye".data, "hang up".data]

/-- Speak-to-someone words ((speak|talk) (to|with)|someone|person). -/
def speakWords : List Str :=
  ["speak to".data, "speak with".data, "talk to".data, "talk with".data,
   "someone".data, "person".data]

/-- office_hours_message handler (lines 508-530). -/
def stepOfficeHoursMsg (m : Memory) (low : Str) : Memory :=
  if containsAny ohmYesWords low then { m with flow_state := .message_first_name }
  else if containsAny ohmNoWords low then
    { m with flow_state := .office_hours_declined, conversation_ended := true }
  else if containsAny speakWords low then { m with flow_state := .office_hours_message }
  else { m with flow_state := .message_first_name }

/-- inquiry_intent handler (lines 534-549). -/
def stepInquiry (m : Memory) (low : Str) : Memory :=
  if containsAny ohmYesWords low then { m with flow_state := .message_first_name }
  else if containsAny ohmNoWords low then
    { m with flow_state := .office_hours_declined, conversation_ended := true }
  else { m with flow_state := .message_first_name }

/-- Affirmative words of the office-hours-question handler. -/
def ohqYesWords : List Str :=
  ["yes".data, "yeah".data, "sure".data, "ok".data, "message".data,
   "please".data, "callback".data, "call back".data]

/-- Negative words of the office-hours-question handler. -/
def ohqNoWords : List Str :=
  ["no".data, "nope".data, "not".data, "later".data, "goodbye".data, "bye".data]

/-- office_hours_question handler (lines 553-566). -/
def stepOfficeHoursQ (m : Memory) (low : Str) : Memory :=
  if containsAny ohqYesWords low then { m with flow_state := .message_first_name }
  else if containsAny ohqNoWords low then
    { m with flow_state := .office_hours_declined, conversation_ended := true }
  else { m with flow_state := .message_first_name }

/-- Alternatives of the offer_slots rejection regex (line 595). -/
def rejectionWords : List Str :=
  ["no".data, "nope".data, "not".data, "don".data ++ apos :: "t".data,
   "none".data, "neither".data, "doesn".data ++ apos :: "t work".data,
   "that won".data ++ apos :: "t work".data, "no thanks".data]

/-- Literal alternatives of the time-preference regex (line 596);
the alternatives at \d(1,2) and :\d(2) are tested separately. -/
def timeWords : List Str :=
  ["today".data, "tomorrow".data, "monday".data, "tuesday".data,
   "wednesday".data, "thursday".data, "friday".data, "saturday".data,
   "sunday".data, "am".data, "pm".data, "morning".data, "afternoon".data,
   "evening".data, "next week".data, "next month".data]

/-- Occurrence of the literal at-space followed by a digit. -/
def atDigitPat : Str → Bool
  | [] => false
  | c :: r =>
    (("at ".data).isPrefixOf (c :: r) &&
      (match (c :: r).drop 3 with
       | d :: _ => isDigitCh d
       | [] => false))
    || atDigitPat r

/-- Occurrence of a colon followed by two digits. -/
def colonDigitsPat : Str → Bool
  | [] => false
  | c :: r =>
    (c = ':' &&
      (match r with
       | d1 :: d2 :: _ => isDigitCh d1 && isDigitCh d2
       | _ => false))
    || colonDigitsPat r

/-- The full time-preference test. -/
def timePrefPat (low : Str) : Bool :=
  containsAny timeWords low || atDigitPat low || colonDigitsPat low

/-- The full explicit-rejection test. -/
def rejectionPat (low : Str) : Bool := containsAny rejectionWords low

/-- offer_slots handler (lines 586-625): acceptance records the slot and
enters the appointment branch; otherwise a proactive time preference
re-runs the calendar check; otherwise an explicit rejection increments
slot_offer_attempt, moving to message_fallback_intro at four rejections
and to ask_preferred_time before that; anything else re-offers without
counting. -/
def stepOfferSlots (m : Memory) (sp : Str) : Memory :=
  match detectSlotAcceptance sp m.offered_slots with
  | some sl =>
    { m with selected_slot := some sl.displayText,
             selected_slot_iso := some sl.iso,
             flow_state := .appointment_first_name }
  | none =>
    if timePrefPat (toLower sp) then
      { m with user_preferred_time := some (trim sp), flow_state := .calendar_check }
    else if rejectionPat (toLower sp) then
      if m.slot_offer_attempt + 1 ≥ 4 then
        { m with slot_offer_attempt := m.slot_offer_attempt + 1,
                 flow_state := .message_fallback_intro }
      else
        { m with slot_offer_attempt := m.slot_offer_attempt + 1,
                 flow_state := .ask_preferred_time }
    else { m with flow_state := .offer_slots }

/-- appointment_first_name handler (lines 636-643): always accepts,
falling back to the trimmed raw utterance. -/
def stepApptFirstName (m : Memory) (sp : Str) : Memory :=
  { m with first_name := some (if (extractName sp).isEmpty then trim sp else extractName sp),
           flow_state := .appointment_last_name, first_name_retry := 0 }

/-- appointment_last_name handler (lines 645-662): retries twice, then
accepts the raw utterance. -/
def stepApptLastName (m : Memory) (sp : Str) : Memory :=
  if !(extractName sp).isEmpty then
    { m with last_name := some (extractName sp), flow_state := .appointment_phone,
             last_name_retry := 0 }
  else if m.last_name_retry + 1 ≥ 2 then
    { m with last_name := some (trim sp), flow_state := .appointment_phone,
             last_name_retry := m.last_name_retry + 1 }
  else { m with last_name_retry := m.last_name_retry + 1 }

/-- appointment_email handler (lines 664-683). -/
def stepApptEmail (m : Memory) (sp : Str) : Memory :=
  if !(extractEmail sp).isEmpty then
    { m with email_spelled := some (extractEmail sp),
             flow_state := .appointment_email_confirm, email_retry := 0 }
  else if m.email_retry + 1 ≥ 2 then
    { m with email_spelled := some (trim sp), flow_state := .appointment_email_confirm,
             email_retry := m.email_retry + 1 }
  else { m with email_retry := m.email_retry + 1 }

/-- Affirmative words of the email-confirmation regex. -/
def emailYesWords : List Str :=
  ["yes".data, "yeah".data, "correct".data, "right".data, "yep".data,
   "that".data ++ apos :: "s right".data, "that is correct".data]

/-- Negative words of the email-confirmation regex. -/
def emailNoWords : List Str :=
  ["no".data, "wrong".data, "incorrect".data, "not right".data]

/-- appointment_email_confirm handler (lines 686-712): affirmative
promotes the spelled candidate, negative restarts email collection, a
parsable correction replaces the candidate and stays, anything else is
assumed confirmed. -/
def stepApptEmailConfirm (m : Memory) (sp : Str) (low : Str) : Memory :=
  if containsAny emailYesWords low then
    { m with email := m.email_spelled, flow_state := .appointment_previous_client }
  else if containsAny emailNoWords low then
    { m with email_spelled := none, email_retry := 0, flow_state := .appointment_email }
  else if !(extractEmail sp).isEmpty then
    { m with email_spelled := some (extractEmail sp) }
  else { m with email := m.email_spelled, flow_state := .appointment_previous_client }

/-- appointment_phone handler (lines 714-731): strips non-digits and
accepts the digit string whenever it has at least ten digits; after two
failed retries the digit string is accepted regardless. -/
def stepApptPhone (m : Memory) (sp : Str) : Memory :=
  if !(digitsOf sp).isEmpty ∧ (digitsOf sp).length ≥ 10 then
    { m with phone := some (digitsOf sp), flow_state := .appointment_email, phone_retry := 0 }
  else if m.phone_retry + 1 ≥ 2 then
    { m with phone := some (digitsOf sp),
             flow_state := .appointment_email, phone_retry := m.phone_retry + 1 }
  else { m with phone_retry := m.phone_retry + 1 }

/-- Affirmative words of the previous-client regex. -/
def prevClientYesWords : List Str :=
  ["yes".data, "yeah".data, "returning".data, "client".data, "previous".data]

/-- appointment_previous_client handler (lines 733-742). -/
def stepApptPrevClient (m : Memory) (low : Str) : Memory :=
  if containsAny prevClientYesWords low then
    { m with previous_client := some ("Yes".data), flow_state := .appointment_welcome_back }
  else
    { m with previous_client := some ("No".data), flow_state := .appointment_referral }

/-- Affirmative words of the final-confirmation regex. -/
def confirmYesWords : List Str :=
  ["yes".data, "yeah".data, "correct".data, "right".data, "yep".data]

/-- Negative words of the final-confirmation regex. -/
def confirmNoWords : List Str :=
  ["no".data, "nope".data, "wrong".data, "incorrect".data]

/-- appointment_confirm handler (lines 763-781): affirmative completes;
negative clears first name, last name, phone and email and restarts
from the first field; anything else is assumed confirmed. -/
def stepApptConfirm (m : Memory) (low : Str) : Memory :=
  if containsAny confirmYesWords low then
    { m with flow_state := .appointment_complete }
  else if containsAny confirmNoWords low then
    { m with flow_state := .appointment_first_name,
             first_name := none, last_name := none, phone := none, email := none }
  else { m with flow_state := .appointment_complete }

/-- Affirmative words of the message-fallback-intro regex. -/
def mfiYesWords : List Str :=
  ["yes".data, "yeah".data, "sure".data, "ok".data, "okay".data,
   "alright".data, "please".data, "message".data]

/-- Negative words of the message-fallback-intro regex. -/
def mfiNoWords : List Str :=
  ["no".data, "nope".data, "not".data, "call back".data, "later".data,
   "goodbye".data, "bye".data]

/-- message_fallback_intro handler (lines 784-798). -/
def stepMsgFallbackIntro (m : Memory) (low : Str) : Memory :=
  if containsAny mfiYesWords low then { m with flow_state := .message_first_name }
  else if containsAny mfiNoWords low then
    { m with flow_state := .office_hours_declined, conversation_ended := true }
  else { m with flow_state := .message_first_name }

/-- message_first_name handler (lines 801-808). -/
def stepMsgFirstName (m : Memory) (sp : Str) : Memory :=
  { m with first_name := some (if (extractName sp).isEmpty then trim sp else extractName sp),
           first_name_retry := 0, flow_state := .message_last_name }

/-- message_last_name handler (lines 810-827). -/
def stepMsgLastName (m : Memory) (sp : Str) : Memory :=
  if !(extractName sp).isEmpty then
    { m with last_name := some (extractName sp), flow_state := .message_phone,
             last_name_retry := 0 }
  else if m.last_name_retry + 1 ≥ 2 then
    { m with last_name := some (trim sp), flow_state := .message_phone,
             last_name_retry := m.last_name_retry + 1 }
  else { m with last_name_retry := m.last_name_retry + 1 }

/-- message_phone handler (lines 829-846), identical in shape to the
appointment one. -/
def stepMsgPhone (m : Memory) (sp : Str) : Memory :=
  if !(digitsOf sp).isEmpty ∧ (digitsOf sp).length ≥ 10 then
    { m with phone := some (digitsOf sp), flow_state := .message_email, phone_retry := 0 }
  else if m.phone_retry + 1 ≥ 2 then
    { m with phone := some (digitsOf sp),
             flow_state := .message_email, phone_retry := m.phone_retry + 1 }
  else { m with phone_retry := m.phone_retry + 1 }

/-- message_email handler (lines 848-867). -/
def stepMsgEmail (m : Memory) (sp : Str) : Memory :=
  if !(extractEmail sp).isEmpty then
    { m with email_spelled := some (extractEmail sp),
             flow_state := .message_email_confirm, email_retry := 0 }
  else if m.email_retry + 1 ≥ 2 then
    { m with email_spelled := some (trim sp), flow_state := .message_email_confirm,
             email_retry := m.email_retry + 1 }
  else { m with email_retry := m.email_retry + 1 }

/-- message_email_confirm handler (lines 870-896). -/
def stepMsgEmailConfirm (m : Memory) (sp : Str) (low : Str) : Memory :=
  if containsAny emailYesWords low then
    { m with email := m.email_spelled, flow_state := .message_content }
  else if containsAny emailNoWords low then
    { m with email_spelled := none, email_retry := 0, flow_state := .message_email }
  else if !(extractEmail sp).isEmpty then
    { m with email_spelled := some (extractEmail sp) }
  else { m with email := m.email_spelled, flow_state := .message_content }

/-- message_content handler (lines 898-907): accepts any trimmed
utterance longer than two characters. -/
def stepMsgContent (m : Memory) (sp : Str) : Memory :=
  if !(trim sp).isEmpty ∧ (trim sp).length > 2 then
    { m with message_content := some (trim sp), flow_state := .message_confirm }
  else m

/-- message_confirm handler (lines 909-926): affirmative completes;
negative clears first name, phone and email and restarts from the first
field; anything else is assumed confirmed. -/
def stepMsgConfirm (m : Memory) (low : Str) : Memory :=
  if containsAny confirmYesWords low then
    { m with flow_state := .message_complete }
  else if containsAny confirmNoWords low then
    { m with flow_state := .message_first_name,
             first_name := none, phone := none, email := none }
  else { m with flow_state := .message_complete }

/-- The multi-path state machine (lines 395-927), run only when the
utterance is non-empty and trims non-empty; lowerSpeech is computed
once at the top. -/
def smStep (m : Memory) (inp : TurnInput) : Memory :=
  if speechActive inp.speech = false then m
  else
    let low := toLower inp.speech
    match m.flow_state with
    | .greeting => stepIntent m inp
    | .awaiting_intent => stepIntent m inp
    | .intent_clarification => stepClarify m inp.speech
    | .office_hours_message => stepOfficeHoursMsg m low
    | .inquiry_intent => stepInquiry m low
    | .office_hours_question => stepOfficeHoursQ m low
    | .calendar_check => calCheckResolve m inp.calSlots
    | .offer_slots => stepOfferSlots m inp.speech
    | .ask_preferred_time =>
      { m with user_preferred_time := some (trim inp.speech), flow_state := .calendar_check }
    | .appointment_first_name => stepApptFirstName m inp.speech
    | .appointment_last_name => stepApptLastName m inp.speech
    | .appointment_email => stepApptEmail m inp.speech
    | .appointment_email_confirm => stepApptEmailConfirm m inp.speech low
    | .appointment_phone => stepApptPhone m inp.speech
    | .appointment_previous_client => stepApptPrevClient m low
    | .appointment_welcome_back =>
      { m with call_reason := some (trim inp.speech), flow_state := .appointment_confirm }
    | .appointment_referral =>
      { m with referral_source := some (trim inp.speech), flow_state := .appointment_call_reason }
    | .appointment_call_reason =>
      { m with call_reason := some (trim inp.speech), flow_state := .appointment_confirm }
    | .appointment_confirm => stepApptConfirm m low
    | .message_fallback_intro => stepMsgFallbackIntro m low
    | .message_first_name => stepMsgFirstName m inp.speech
    | .message_last_name => stepMsgLastName m inp.speech
    | .message_phone => stepMsgPhone m inp.speech
    | .message_email => stepMsgEmail m inp.speech
    | .message_email_confirm => stepMsgEmailConfirm m inp.speech low
    | .message_content => stepMsgContent m inp.speech
    | .message_confirm => stepMsgConfirm m low
    | .office_hours_declined => m
    | .appointment_complete => m
    | .message_complete => m
    | .callback_end => m

/-- States whose prompt is regenerated after the state machine ran
(lines 931-934). -/
def regenStates : List FlowState :=
  [.calendar_check, .offer_slots, .office_hours_message, .inquiry_intent,
   .intent_clarification, .message_fallback_intro, .message_confirm,
   .office_hours_question, .ask_preferred_time, .appointment_email_confirm,
   .message_email_confirm, .appointment_confirm]

/-- Overwrite the content of the last history entry. -/
def setLastContent : List Msg → Str → List Msg
  | [], _ => []
  | [msg], t => [{ msg with content := t }]
  | msg :: rest, t => msg :: setLastContent rest t

/-- Regeneration block (lines 929-950): when the utterance was live and
the new state is in the regeneration list, a further LLM call rewrites
the last assistant history entry (a thrown call leaves it unchanged). -/
def regenPhase (m : Memory) (inp : TurnInput) : Memory :=
  if speechActive inp.speech = true ∧ m.flow_state ∈ regenStates ∧ inp.regenOk = true then
    { m with history := setLastContent m.history inp.regenText }
  else m

/-- Whether the main LLM completion is attempted this turn (lines
333-342): skipped only when awaiting intent with no speech. -/
def llmCalled (m : Memory) (inp : TurnInput) : Bool :=
  !(m.flow_state = .awaiting_intent ∧ inp.speech.isEmpty : Bool)

/-- The try block of the handler (lines 316-950): a thrown main
completion leaves the record untouched (the catch only replaces the
spoken text); otherwise history, greeting, pre-state-machine calendar
check, state machine and regeneration run in order. -/
def tryPhase (m : Memory) (inp : TurnInput) : Memory :=
  if llmCalled m inp = true ∧ inp.llmOk = false then m
  else regenPhase (smStep (calendarPre (greetingStep (pushHist m inp)) inp.calSlots) inp) inp

/-- Result of one turn: the updated record and whether the
appointment-booking dispatch and the message dispatch fired. -/
structure TurnResult where
  memory : Memory
  bookingFired : Bool
  messageFired : Bool

/-- The appointment webhook block (lines 961-1008): the booking dispatch
is attempted only when the flow state is appointment_complete and the
one-shot flag booking_completed is still false, and the flag is set
before the network attempt. -/
def dispatchBooking (m : Memory) : Memory × Bool :=
  if m.flow_state = .appointment_complete ∧ m.booking_completed = false then
    ({ m with booking_completed := true }, true)
  else (m, false)

/-- The message webhook block (lines 1010-1048), gated by the one-shot
flag message_sent in the same way. -/
def dispatchMessage (m : Memory) : Memory × Bool :=
  if m.flow_state = .message_complete ∧ m.message_sent = false then
    ({ m with message_sent := true }, true)
  else (m, false)

/-- Both webhook blocks in source order. -/
def dispatchPhase (m : Memory) : TurnResult :=
  ⟨(dispatchMessage (dispatchBooking m).1).1,
   (dispatchBooking m).2,
   (dispatchMessage (dispatchBooking m).1).2⟩

/-- End-of-turn check (lines 1069-1122): a terminal flow state or an
already-ended conversation marks the record ended. -/
def endPhase (m : Memory) : Memory :=
  if m.flow_state = .appointment_complete ∨ m.flow_state = .message_complete
     ∨ m.flow_state = .office_hours_declined ∨ m.flow_state = .callback_end
     ∨ m.conversation_ended = true then
    { m with conversation_ended := true }
  else m

/-- One complete /voice turn over an existing conversation record. -/
def processTurn (m : Memory) (inp : TurnInput) : TurnResult :=
  let m1 := tryPhase m inp
  let r := dispatchPhase m1
  ⟨endPhase r.memory, r.bookingFired, r.messageFired⟩

/-- The phone field of the appointment webhook payload (line 985):
memory.phone with JavaScript falsiness fallback to req.body.From. -/
def apptPayloadPhone (m : Memory) (callerFrom : Str) : Str :=
  match m.phone with
  | some p => if p.isEmpty then callerFrom else p
  | none => callerFrom

/-- The phone field of the message webhook payload (line 1028), the same
expression as in the appointment payload. -/
def msgPayloadPhone (m : Memory) (callerFrom : Str) : Str :=
  match m.phone with
  | some p => if p.isEmpty then callerFrom else p
  | none => callerFrom

/-! ### Frame lemmas for the turn phases -/

theorem pushHist_fs (m : Memory) (inp : TurnInput) :
    (pushHist m inp).flow_state = m.flow_state := rfl

theorem pushHist_soa (m : Memory) (inp : TurnInput) :
    (pushHist m inp).slot_offer_attempt = m.slot_offer_attempt := rfl

theorem pushHist_os (m : Memory) (inp : TurnInput) :
    (pushHist m inp).offered_slots = m.offered_slots := rfl

theorem pushHist_fn (m : Memory) (inp : TurnInput) :
    (pushHist m inp).first_name = m.first_name := rfl

theorem pushHist_ln (m : Memory) (inp : TurnInput) :
    (pushHist m inp).last_name = m.last_name := rfl

theorem pushHist_ph (m : Memory) (inp : TurnInput) :
    (pushHist m inp).phone = m.phone := rfl

theorem pushHist_em (m : Memory) (inp : TurnInput) :
    (pushHist m inp).email = m.email := rfl

theorem pushHist_pc (m : Memory) (inp : TurnInput) :
    (pushHist m inp).previous_client = m.previous_client := rfl

theorem pushHist_rs (m : Memory) (inp : TurnInput) :
    (pushHist m inp).referral_source = m.referral_source := rfl

theorem pushHist_cr (m : Memory) (inp : TurnInput) :
    (pushHist m inp).call_reason = m.call_reason := rfl

theorem pushHist_mc (m : Memory) (inp : TurnInput) :
    (pushHist m inp).message_content = m.message_content := rfl

theorem pushHist_book (m : Memory) (inp : TurnInput) :
    (pushHist m inp).booking_completed = m.booking_completed := rfl

theorem pushHist_sent (m : Memory) (inp : TurnInput) :
    (pushHist m inp).message_sent = m.message_sent := rfl

theorem regen_fs (m : Memory) (inp : TurnInput) :
    (regenPhase m inp).flow_state = m.flow_state := by
  unfold regenPhase; split <;> rfl

theorem regen_soa (m : Memory) (inp : TurnInput) :
    (regenPhase m inp).slot_offer_attempt = m.slot_offer_attempt := by
  unfold regenPhase; split <;> rfl

theorem regen_os (m : Memory) (inp : TurnInput) :
    (regenPhase m inp).offered_slots = m.offered_slots := by
  unfold regenPhase; split <;> rfl

theorem regen_fn (m : Memory) (inp : TurnInput) :
    (regenPhase m inp).first_name = m.first_name := by
  unfold regenPhase; split <;> rfl

theorem regen_ln (m : Memory) (inp : TurnInput) :
    (regenPhase m inp).last_name = m.last_name := by
  unfold regenPhase; split <;> rfl

theorem regen_ph (m : Memory) (inp : TurnInput) :
    (regenPhase m inp).phone = m.phone := by
  unfold regenPhase; split <;> rfl

theorem regen_em (m : Memory) (inp : TurnInput) :
    (regenPhase m inp).email = m.email := by
  unfold regenPhase; split <;> rfl

theorem regen_pc (m : Memory) (inp : TurnInput) :
    (regenPhase m inp).previous_client = m.previous_client := by
  unfold regenPhase; split <;> rfl

theorem regen_rs (m : Memory) (inp : TurnInput) :
    (regenPhase m inp).referral_source = m.referral_source := by
  unfold regenPhase; split <;> rfl

theorem regen_cr (m : Memory) (inp : TurnInput) :
    (regenPhase m inp).call_reason = m.call_reason := by
  unfold regenPhase; split <;> rfl

theorem regen_mc (m : Memory) (inp : TurnInput) :
    (regenPhase m inp).message_content = m.message_content := by
  unfold regenPhase; split <;> rfl

theorem regen_book (m : Memory) (inp : TurnInput) :
    (regenPhase m inp).booking_completed = m.booking_completed := by
  unfold regenPhase; split <;> rfl

theorem regen_sent (m : Memory) (inp : TurnInput) :
    (regenPhase m inp).message_sent = m.message_sent := by
  unfold regenPhase; split <;> rfl

theorem dispB_fs (m : Memory) :
    (dispatchBooking m).1.flow_state = m.flow_state := by
  unfold dispatchBooking; split <;> rfl

theorem dispB_soa (m : Memory) :
    (dispatchBooking m).1.slot_offer_attempt = m.slot_offer_attempt := by
  unfold dispatchBooking; split <;> rfl

theorem dispB_os (m : Memory) :
    (dispatchBooking m).1.offered_slots = m.offered_slots := by
  unfold dispatchBooking; split <;> rfl

theorem dispB_fn (m : Memory) :
    (dispatchBooking m).1.first_name = m.first_name := by
  unfold dispatchBooking; split <;> rfl

theorem dispB_ln (m : Memory) :
    (dispatchBooking m).1.last_name = m.last_name := by
  unfold dispatchBooking; split <;> rfl

theorem dispB_ph (m : Memory) :
    (dispatchBooking m).1.phone = m.phone := by
  unfold dispatchBooking; split <;> rfl

theorem dispB_em (m : Memory) :
    (dispatchBooking m).1.email = m.email := by
  unfold dispatchBooking; split <;> rfl

theorem dispB_pc (m : Memory) :
    (dispatchBooking m).1.previous_client = m.previous_client := by
  unfold dispatchBooking; split <;> rfl

theorem dispB_rs (m : Memory) :
    (dispatchBooking m).1.referral_source = m.referral_source := by
  unfold dispatchBooking; split <;> rfl

theorem dispB_cr (m : Memory) :
    (dispatchBooking m).1.call_reason = m.call_reason := by
  unfold dispatchBooking; split <;> rfl

theorem dispB_mc (m : Memory) :
    (dispatchBooking m).1.message_content = m.message_content := by
  unfold dispatchBooking; split <;> rfl

theorem dispB_sent (m : Memory) :
    (dispatchBooking m).1.message_sent = m.message_sent := by
  unfold dispatchBooking; split <;> rfl

theorem dispM_fs (m : Memory) :
    (dispatchMessage m).1.flow_state = m.flow_state := by
  unfold dispatchMessage; split <;> rfl

theorem dispM_soa (m : Memory) :
    (dispatchMessage m).1.slot_offer_attempt = m.slot_offer_attempt := by
  unfold dispatchMessage; split <;> rfl

theorem dispM_os (m : Memory) :
    (dispatchMessage m).1.offered_slots = m.offered_slots := by
  unfold dispatchMessage; split <;> rfl

theorem dispM_fn (m : Memory) :
    (dispatchMessage m).1.first_name = m.first_name := by
  unfold dispatchMessage; split <;> rfl

theorem dispM_ln (m : Memory) :
    (dispatchMessage m).1.last_name = m.last_name := by
  unfold dispatchMessage; split <;> rfl

theorem dispM_ph (m : Memory) :
    (dispatchMessage m).1.phone = m.phone := by
  unfold dispatchMessage; split <;> rfl

theorem dispM_em (m : Memory) :
    (dispatchMessage m).1.email = m.email := by
  unfold dispatchMessage; split <;> rfl

theorem dispM_pc (m : Memory) :
    (dispatchMessage m).1.previous_client = m.previous_client := by
  unfold dispatchMessage; split <;> rfl

theorem dispM_rs (m : Memory) :
    (dispatchMessage m).1.referral_source = m.referral_source := by
  unfold dispatchMessage; split <;> rfl

theorem dispM_cr (m : Memory) :
    (dispatchMessage m).1.call_reason = m.call_reason := by
  unfold dispatchMessage; split <;> rfl

theorem dispM_mc (m : Memory) :
    (dispatchMessage m).1.message_content = m.message_content := by
  unfold dispatchMessage; split <;> rfl

theorem dispM_book (m : Memory) :
    (dispatchMessage m).1.booking_completed = m.booking_completed := by
  unfold dispatchMessage; split <;> rfl

theorem endP_fs (m : Memory) :
    (endPhase m).flow_state = m.flow_state := by
  unfold endPhase; split <;> rfl

theorem endP_soa (m : Memory) :
    (endPhase m).slot_offer_attempt = m.slot_offer_attempt := by
  unfold endPhase; split <;> rfl

theorem endP_os (m : Memory) :
    (endPhase m).offered_slots = m.offered_slots := by
  unfold endPhase; split <;> rfl

theorem endP_fn (m : Memory) :
    (endPhase m).first_name = m.first_name := by
  unfold endPhase; split <;> rfl

theorem endP_ln (m : Memory) :
    (endPhase m).last_name = m.last_name := by
  unfold endPhase; split <;> rfl

theorem endP_ph (m : Memory) :
    (endPhase m).phone = m.phone := by
  unfold endPhase; split <;> rfl

theorem endP_em (m : Memory) :
    (endPhase m).email = m.email := by
  unfold endPhase; split <;> rfl

theorem endP_pc (m : Memory) :
    (endPhase m).previous_client = m.previous_client := by
  unfold endPhase; split <;> rfl

theorem endP_rs (m : Memory) :
    (endPhase m).referral_source = m.referral_source := by
  unfold endPhase; split <;> rfl

theorem endP_cr (m : Memory) :
    (endPhase m).call_reason = m.call_reason := by
  unfold endPhase; split <;> rfl

theorem endP_mc (m : Memory) :
    (endPhase m).message_content = m.message_content := by
  unfold endPhase; split <;> rfl

theorem endP_book (m : Memory) :
    (endPhase m).booking_completed = m.booking_completed := by
  unfold endPhase; split <;> rfl

theorem endP_sent (m : Memory) :
    (endPhase m).message_sent = m.message_sent := by
  unfold endPhase; split <;> rfl

theorem greetingStep_book (m : Memory) :
    (greetingStep m).booking_completed = m.booking_completed := by
  unfold greetingStep; split <;> rfl

theorem calendarPre_book (m : Memory) (s : Option (List Slot)) :
    (calendarPre m s).booking_completed = m.booking_completed := by
  unfold calendarPre calCheckResolve; (repeat' split) <;> rfl

theorem smStep_book (m : Memory) (inp : TurnInput) :
    (smStep m inp).booking_completed = m.booking_completed := by
  unfold smStep
  split
  · rfl
  · cases hfs : m.flow_state <;>
      simp only [stepIntent, routeIntent, stepClarify, stepOfficeHoursMsg, stepInquiry,
        stepOfficeHoursQ, calCheckResolve, stepOfferSlots, stepApptFirstName,
        stepApptLastName, stepApptEmail, stepApptEmailConfirm, stepApptPhone,
        stepApptPrevClient, stepApptConfirm, stepMsgFallbackIntro, stepMsgFirstName,
        stepMsgLastName, stepMsgPhone, stepMsgEmail, stepMsgEmailConfirm, stepMsgContent,
        stepMsgConfirm] <;>
      (repeat' split) <;> rfl

theorem tryPhase_book (m : Memory) (inp : TurnInput) :
    (tryPhase m inp).booking_completed = m.booking_completed := by
  unfold tryPhase
  split
  · rfl
  · rw [regen_book, smStep_book, calendarPre_book, greetingStep_book, pushHist_book]

theorem greetingStep_sent (m : Memory) :
    (greetingStep m).message_sent = m.message_sent := by
  unfold greetingStep; split <;> rfl

theorem calendarPre_sent (m : Memory) (s : Option (List Slot)) :
    (calendarPre m s).message_sent = m.message_sent := by
  unfold calendarPre calCheckResolve; (repeat' split) <;> rfl

theorem smStep_sent (m : Memory) (inp : TurnInput) :
    (smStep m inp).message_sent = m.message_sent := by
  unfold smStep
  split
  · rfl
  · cases hfs : m.flow_state <;>
      simp only [stepIntent, routeIntent, stepClarify, stepOfficeHoursMsg, stepInquiry,
        stepOfficeHoursQ, calCheckResolve, stepOfferSlots, stepApptFirstName,
        stepApptLastName, stepApptEmail, stepApptEmailConfirm, stepApptPhone,
        stepApptPrevClient, stepApptConfirm, stepMsgFallbackIntro, stepMsgFirstName,
        stepMsgLastName, stepMsgPhone, stepMsgEmail, stepMsgEmailConfirm, stepMsgContent,
        stepMsgConfirm] <;>
      (repeat' split) <;> rfl

theorem tryPhase_sent (m : Memory) (inp : TurnInput) :
    (tryPhase m inp).message_sent = m.message_sent := by
  unfold tryPhase
  split
  · rfl
  · rw [regen_sent, smStep_sent, calendarPre_sent, greetingStep_sent, pushHist_sent]

theorem dispatchBooking_spec (m : Memory) :
    ((dispatchBooking m).2 = true ↔
      (m.flow_state = .appointment_complete ∧ m.booking_completed = false)) ∧
    ((dispatchBooking m).1.booking_completed = true ↔
      (m.booking_completed = true ∨ m.flow_state = .appointment_complete)) := by
  unfold dispatchBooking
  split <;> cases hb : m.booking_completed <;> simp_all

theorem dispatchMessage_spec (m : Memory) :
    ((dispatchMessage m).2 = true ↔
      (m.flow_state = .message_complete ∧ m.message_sent = false)) ∧
    ((dispatchMessage m).1.message_sent = true ↔
      (m.message_sent = true ∨ m.flow_state = .message_complete)) := by
  unfold dispatchMessage
  split <;> cases hb : m.message_sent <;> simp_all

theorem processTurn_book_spec (m : Memory) (inp : TurnInput) :
    ((processTurn m inp).bookingFired = true ↔
      ((tryPhase m inp).flow_state = .appointment_complete ∧ m.booking_completed = false)) ∧
    ((processTurn m inp).memory.booking_completed = true ↔
      (m.booking_completed = true ∨ (tryPhase m inp).flow_state = .appointment_complete)) := by
  have h1 := dispatchBooking_spec (tryPhase m inp)
  have h2 := tryPhase_book m inp
  unfold processTurn dispatchPhase
  constructor
  · rw [h2] at h1; exact h1.1
  · rw [h2] at h1
    rw [endP_book, dispM_book]
    exact h1.2

theorem processTurn_sent_spec (m : Memory) (inp : TurnInput) :
    ((processTurn m inp).messageFired = true ↔
      ((tryPhase m inp).flow_state = .message_complete ∧ m.message_sent = false)) ∧
    ((processTurn m inp).memory.message_sent = true ↔
      (m.message_sent = true ∨ (tryPhase m inp).flow_state = .message_complete)) := by
  have h1 := dispatchMessage_spec (dispatchBooking (tryPhase m inp)).1
  rw [dispB_sent, dispB_fs, tryPhase_sent] at h1
  unfold processTurn dispatchPhase
  exact ⟨h1.1, by rw [endP_sent]; exact h1.2⟩

/-! ### C1: idempotent terminal dispatch -/

/-- C1: for every call, processing a turn twice (duplicate delivery of a
turn once flow_state is appointment_complete or message_complete)
results in at most one booking-creation call and at most one
notification event: each dispatch is gated by its one-shot flag
(booking_completed resp. message_sent), which is set before or
atomically with the attempt, and once the flag is true that dispatch is
permanently suppressed for the call. -/
theorem dispatch_idempotent_once (m : Memory) (i1 i2 : TurnInput) :
    ((processTurn m i1).bookingFired = true →
      (processTurn (processTurn m i1).memory i2).bookingFired = false) ∧
    ((processTurn m i1).messageFired = true →
      (processTurn (processTurn m i1).memory i2).messageFired = false) ∧
    (m.booking_completed = true →
      (processTurn m i1).bookingFired = false ∧
      (processTurn m i1).memory.booking_completed = true) ∧
    (m.message_sent = true →
      (processTurn m i1).messageFired = false ∧
      (processTurn m i1).memory.message_sent = true) := by
  refine ⟨?_, ?_, ?_, ?_⟩
  · intro h1
    have hflag : (processTurn m i1).memory.booking_completed = true :=
      (processTurn_book_spec m i1).2.2 (Or.inr ((processTurn_book_spec m i1).1.1 h1).1)
    cases hcon : (processTurn (processTurn m i1).memory i2).bookingFired
    · rfl
    · have := ((processTurn_book_spec (processTurn m i1).memory i2).1.1 hcon).2
      rw [hflag] at this
      exact absurd this (by simp)
  · intro h1
    have hflag : (processTurn m i1).memory.message_sent = true :=
      (processTurn_sent_spec m i1).2.2 (Or.inr ((processTurn_sent_spec m i1).1.1 h1).1)
    cases hcon : (processTurn (processTurn m i1).memory i2).messageFired
    · rfl
    · have := ((processTurn_sent_spec (processTurn m i1).memory i2).1.1 hcon).2
      rw [hflag] at this
      exact absurd this (by simp)
  · intro h1
    refine ⟨?_, (processTurn_book_spec m i1).2.2 (Or.inl h1)⟩
    cases hcon : (processTurn m i1).bookingFired
    · rfl
    · have := ((processTurn_book_spec m i1).1.1 hcon).2
      rw [h1] at this
      exact absurd this (by simp)
  · intro h1
    refine ⟨?_, (processTurn_sent_spec m i1).2.2 (Or.inl h1)⟩
    cases hcon : (processTurn m i1).messageFired
    · rfl
    · have := ((processTurn_sent_spec m i1).1.1 hcon).2
      rw [h1] at this
      exact absurd this (by simp)

/-- A concrete record that has just reached appointment_complete with
both one-shot flags still clear. -/
def memApptDone : Memory :=
  { initialMemory with flow_state := .appointment_complete }

/-- A concrete record in message_complete with both one-shot flags
already set. -/
def memFlagsSet : Memory :=
  { initialMemory with flow_state := .message_complete,
                       booking_completed := true, message_sent := true }

/-- A neutral concrete turn input (silent duplicate delivery). -/
def silentTurn : TurnInput :=
  ⟨[], true, "Goodbye.".data, true, [], none, none⟩

theorem dispatch_idempotent_once_witness :
    (processTurn memApptDone silentTurn).bookingFired = true ∧
    (processTurn (processTurn memApptDone silentTurn).memory silentTurn).bookingFired = false ∧
    (processTurn memFlagsSet silentTurn).bookingFired = false ∧
    (processTurn memFlagsSet silentTurn).messageFired = false := by
  refine ⟨by decide,
    (dispatch_idempotent_once memApptDone silentTurn silentTurn).1 (by decide),
    ((dispatch_idempotent_once memFlagsSet silentTurn silentTurn).2.2.1 rfl).1,
    ((dispatch_idempotent_once memFlagsSet silentTurn silentTurn).2.2.2 rfl).1⟩

/-! ### C2: the slot-rejection counter is capped at four -/

/-- States from which the slot-offer loop can still be fed: the
pre-routing states and the calendar/slot negotiation states.  All other
states can never lead back to offer_slots in this controller. -/
def feederState : FlowState → Bool
  | .greeting => true
  | .awaiting_intent => true
  | .intent_clarification => true
  | .calendar_check => true
  | .ask_preferred_time => true
  | .offer_slots => true
  | _ => false

/-- The bounded-rejection invariant: the counter never exceeds four, and
once it has reached four the record can never again sit in a state that
feeds the slot-offer loop. -/
def SlotInv (m : Memory) : Prop :=
  m.slot_offer_attempt ≤ 4 ∧ (m.slot_offer_attempt = 4 → feederState m.flow_state = false)

theorem SlotInv_smStep (m : Memory) (inp : TurnInput) (h : SlotInv m) :
    SlotInv (smStep m inp) := by
  obtain ⟨h1, h2⟩ := h
  unfold smStep
  split
  · exact ⟨h1, h2⟩
  · cases hfs : m.flow_state
    case greeting =>
      have hne : m.slot_offer_attempt ≠ 4 := fun h4 => by
        have h5 := h2 h4; rw [hfs] at h5; exact absurd h5 (by decide)
      show SlotInv (stepIntent m inp)
      unfold stepIntent routeIntent
      (repeat' split) <;> exact ⟨h1, fun h4 => absurd h4 hne⟩
    case awaiting_intent =>
      have hne : m.slot_offer_attempt ≠ 4 := fun h4 => by
        have h5 := h2 h4; rw [hfs] at h5; exact absurd h5 (by decide)
      show SlotInv (stepIntent m inp)
      unfold stepIntent routeIntent
      (repeat' split) <;> exact ⟨h1, fun h4 => absurd h4 hne⟩
    case intent_clarification =>
      have hne : m.slot_offer_attempt ≠ 4 := fun h4 => by
        have h5 := h2 h4; rw [hfs] at h5; exact absurd h5 (by decide)
      show SlotInv (stepClarify m inp.speech)
      unfold stepClarify routeIntent
      (repeat' split) <;> exact ⟨h1, fun h4 => absurd h4 hne⟩
    case calendar_check =>
      have hne : m.slot_offer_attempt ≠ 4 := fun h4 => by
        have h5 := h2 h4; rw [hfs] at h5; exact absurd h5 (by decide)
      show SlotInv (calCheckResolve m inp.calSlots)
      unfold calCheckResolve
      (repeat' split) <;> exact ⟨h1, fun h4 => absurd h4 hne⟩
    case ask_preferred_time =>
      have hne : m.slot_offer_attempt ≠ 4 := fun h4 => by
        have h5 := h2 h4; rw [hfs] at h5; exact absurd h5 (by decide)
      exact ⟨h1, fun h4 => absurd h4 hne⟩
    case offer_slots =>
      have hne : m.slot_offer_attempt ≠ 4 := fun h4 => by
        have h5 := h2 h4; rw [hfs] at h5; exact absurd h5 (by decide)
      show SlotInv (stepOfferSlots m inp.speech)
      unfold stepOfferSlots
      split
      · exact ⟨h1, fun h4 => absurd h4 hne⟩
      · split
        · exact ⟨h1, fun h4 => absurd h4 hne⟩
        · split
          · split
            · exact ⟨by show m.slot_offer_attempt + 1 ≤ 4; omega, fun _ => rfl⟩
            · rename_i hlt
              exact ⟨by show m.slot_offer_attempt + 1 ≤ 4; omega,
                fun h4 => absurd (show m.slot_offer_attempt + 1 = 4 from h4) (by omega)⟩
          · exact ⟨h1, fun h4 => absurd h4 hne⟩
    case office_hours_message =>
      show SlotInv (stepOfficeHoursMsg m (toLower inp.speech))
      unfold stepOfficeHoursMsg
      (repeat' split) <;> exact ⟨h1, fun _ => rfl⟩
    case inquiry_intent =>
      show SlotInv (stepInquiry m (toLower inp.speech))
      unfold stepInquiry
      (repeat' split) <;> exact ⟨h1, fun _ => rfl⟩
    case office_hours_question =>
      show SlotInv (stepOfficeHoursQ m (toLower inp.speech))
      unfold stepOfficeHoursQ
      (repeat' split) <;> exact ⟨h1, fun _ => rfl⟩
    case message_fallback_intro =>
      show SlotInv (stepMsgFallbackIntro m (toLower inp.speech))
      unfold stepMsgFallbackIntro
      (repeat' split) <;> exact ⟨h1, fun _ => rfl⟩
    case appointment_first_name =>
      exact ⟨h1, fun _ => rfl⟩
    case appointment_last_name =>
      show SlotInv (stepApptLastName m inp.speech)
      unfold stepApptLastName
      (repeat' split) <;> first
        | exact ⟨h1, h2⟩
        | exact ⟨h1, fun _ => rfl⟩
    case appointment_email =>
      show SlotInv (stepApptEmail m inp.speech)
      unfold stepApptEmail
      (repeat' split) <;> first
        | exact ⟨h1, h2⟩
        | exact ⟨h1, fun _ => rfl⟩
    case appointment_email_confirm =>
      show SlotInv (stepApptEmailConfirm m inp.speech (toLower inp.speech))
      unfold stepApptEmailConfirm
      (repeat' split) <;> first
        | exact ⟨h1, h2⟩
        | exact ⟨h1, fun _ => rfl⟩
    case appointment_phone =>
      show SlotInv (stepApptPhone m inp.speech)
      unfold stepApptPhone
      (repeat' split) <;> first
        | exact ⟨h1, h2⟩
        | exact ⟨h1, fun _ => rfl⟩
    case appointment_previous_client =>
      show SlotInv (stepApptPrevClient m (toLower inp.speech))
      unfold stepApptPrevClient
      (repeat' split) <;> exact ⟨h1, fun _ => rfl⟩
    case appointment_welcome_back =>
      exact ⟨h1, fun _ => rfl⟩
    case appointment_referral =>
      exact ⟨h1, fun _ => rfl⟩
    case appointment_call_reason =>
      exact ⟨h1, fun _ => rfl⟩
    case appointment_confirm =>
      show SlotInv (stepApptConfirm m (toLower inp.speech))
      unfold stepApptConfirm
      (repeat' split) <;> exact ⟨h1, fun _ => rfl⟩
    case appointment_complete => exact ⟨h1, h2⟩
    case message_first_name =>
      exact ⟨h1, fun _ => rfl⟩
    case message_last_name =>
      show SlotInv (stepMsgLastName m inp.speech)
      unfold stepMsgLastName
      (repeat' split) <;> first
        | exact ⟨h1, h2⟩
        | exact ⟨h1, fun _ => rfl⟩
    case message_phone =>
      show SlotInv (stepMsgPhone m inp.speech)
      unfold stepMsgPhone
      (repeat' split) <;> first
        | exact ⟨h1, h2⟩
        | exact ⟨h1, fun _ => rfl⟩
    case message_email =>
      show SlotInv (stepMsgEmail m inp.speech)
      unfold stepMsgEmail
      (repeat' split) <;> first
        | exact ⟨h1, h2⟩
        | exact ⟨h1, fun _ => rfl⟩
    case message_email_confirm =>
      show SlotInv (stepMsgEmailConfirm m inp.speech (toLower inp.speech))
      unfold stepMsgEmailConfirm
      (repeat' split) <;> first
        | exact ⟨h1, h2⟩
        | exact ⟨h1, fun _ => rfl⟩
    case message_content =>
      show SlotInv (stepMsgContent m inp.speech)
      unfold stepMsgContent
      (repeat' split) <;> first
        | exact ⟨h1, h2⟩
        | exact ⟨h1, fun _ => rfl⟩
    case message_confirm =>
      show SlotInv (stepMsgConfirm m (toLower inp.speech))
      unfold stepMsgConfirm
      (repeat' split) <;> exact ⟨h1, fun _ => rfl⟩
    case message_complete => exact ⟨h1, h2⟩
    case office_hours_declined => exact ⟨h1, h2⟩
    case callback_end => exact ⟨h1, h2⟩

theorem stepOfferSlots_reject (m : Memory) (sp : Str)
    (hacc : detectSlotAcceptance sp m.offered_slots = none)
    (htime : timePrefPat (toLower sp) = false)
    (hrej : rejectionPat (toLower sp) = true) :
    (stepOfferSlots m sp).slot_offer_attempt = m.slot_offer_attempt + 1 ∧
    (m.slot_offer_attempt + 1 ≥ 4 →
      (stepOfferSlots m sp).flow_state = .message_fallback_intro) ∧
    (m.slot_offer_attempt + 1 < 4 →
      (stepOfferSlots m sp).flow_state = .ask_preferred_time) := by
  unfold stepOfferSlots
  simp only [hacc, htime, hrej, Bool.false_eq_true, if_false, if_true]
  split
  · rename_i hge
    exact ⟨rfl, fun _ => rfl, fun hlt => by omega⟩
  · rename_i hge
    exact ⟨rfl, fun hge2 => absurd hge2 hge, fun _ => rfl⟩

theorem stepOfferSlots_ambiguous (m : Memory) (sp : Str)
    (hacc : detectSlotAcceptance sp m.offered_slots = none)
    (htime : timePrefPat (toLower sp) = false)
    (hrej : rejectionPat (toLower sp) = false) :
    stepOfferSlots m sp = { m with flow_state := .offer_slots } := by
  unfold stepOfferSlots
  simp only [hacc, htime, hrej, Bool.false_eq_true, if_false]

theorem SlotInv_greetingStep (m : Memory) (h : SlotInv m) :
    SlotInv (greetingStep m) := by
  obtain ⟨h1, h2⟩ := h
  unfold greetingStep
  split
  · rename_i hc
    refine ⟨h1, fun h4 => ?_⟩
    have h5 := h2 h4
    rw [hc.1] at h5
    exact absurd h5 (by decide)
  · exact ⟨h1, h2⟩

theorem SlotInv_calendarPre (m : Memory) (s : Option (List Slot)) (h : SlotInv m) :
    SlotInv (calendarPre m s) := by
  obtain ⟨h1, h2⟩ := h
  unfold calendarPre calCheckResolve
  split
  · rename_i hc
    have hne : m.slot_offer_attempt ≠ 4 := fun h4 => by
      have h5 := h2 h4; rw [hc.1] at h5; exact absurd h5 (by decide)
    (repeat' split) <;> exact ⟨h1, fun h4 => absurd h4 hne⟩
  · exact ⟨h1, h2⟩

theorem processTurn_memory_eq (m : Memory) (inp : TurnInput) :
    (processTurn m inp).memory =
      endPhase (dispatchMessage (dispatchBooking (tryPhase m inp)).1).1 := by
  unfold processTurn dispatchPhase; rfl

theorem SlotInv_processTurn (m : Memory) (inp : TurnInput) (h : SlotInv m) :
    SlotInv (processTurn m inp).memory := by
  have hmid : SlotInv (tryPhase m inp) := by
    unfold tryPhase
    split
    · exact h
    · have ha : SlotInv (pushHist m inp) := h
      have hb := SlotInv_greetingStep _ ha
      have hc := SlotInv_calendarPre _ inp.calSlots hb
      have hd := SlotInv_smStep _ inp hc
      obtain ⟨x1, x2⟩ := hd
      exact ⟨by rw [regen_soa]; exact x1,
             fun h4 => by rw [regen_fs]; exact x2 (by rw [regen_soa] at h4; exact h4)⟩
  obtain ⟨x1, x2⟩ := hmid
  rw [SlotInv, processTurn_memory_eq, endP_soa, dispM_soa, dispB_soa,
      endP_fs, dispM_fs, dispB_fs]
  exact ⟨x1, x2⟩

/-- Conversation records reachable from the fresh record by any sequence
of turns. -/
inductive Reachable : Memory → Prop
  | init : Reachable initialMemory
  | step (m : Memory) (inp : TurnInput) : Reachable m → Reachable (processTurn m inp).memory

theorem SlotInv_reachable (m : Memory) (h : Reachable m) : SlotInv m := by
  induction h with
  | init => exact ⟨by decide, fun h4 => by simp [initialMemory] at h4⟩
  | step m inp _ ih => exact SlotInv_processTurn m inp ih

/-- C2: for every reachable record, slot_offer_attempt never exceeds 4
and at 4 the record is never in (or feeding) offer_slots; and on any
offer_slots turn whose utterance is an explicit rejection (no
acceptance, no concrete time preference), the counter is incremented by
one and the turn on which it reaches 4 moves the state to
message_fallback_intro (message-taking) while below 4 it moves to
ask_preferred_time. -/
theorem slot_rejection_capped :
    (∀ m : Memory, Reachable m →
      m.slot_offer_attempt ≤ 4 ∧
      (m.slot_offer_attempt = 4 → m.flow_state ≠ .offer_slots)) ∧
    (∀ (m : Memory) (inp : TurnInput),
      m.flow_state = .offer_slots →
      inp.llmOk = true →
      speechActive inp.speech = true →
      detectSlotAcceptance inp.speech m.offered_slots = none →
      timePrefPat (toLower inp.speech) = false →
      rejectionPat (toLower inp.speech) = true →
      (processTurn m inp).memory.slot_offer_attempt = m.slot_offer_attempt + 1 ∧
      (m.slot_offer_attempt + 1 ≥ 4 →
        (processTurn m inp).memory.flow_state = .message_fallback_intro) ∧
      (m.slot_offer_attempt + 1 < 4 →
        (processTurn m inp).memory.flow_state = .ask_preferred_time)) := by
  constructor
  · intro m hr
    obtain ⟨x1, x2⟩ := SlotInv_reachable m hr
    refine ⟨x1, fun h4 hfs => ?_⟩
    have := x2 h4
    rw [hfs] at this
    exact absurd this (by decide)
  · intro m inp hfs hok hact hacc htime hrej
    have hred : tryPhase m inp =
        regenPhase (smStep (calendarPre (greetingStep (pushHist m inp)) inp.calSlots) inp) inp := by
      unfold tryPhase
      split
      · rename_i hc
        rw [hok] at hc
        exact absurd hc.2 (by simp)
      · rfl
    have hg : greetingStep (pushHist m inp) = pushHist m inp := by
      unfold greetingStep
      split
      · rename_i hc
        exact absurd (show m.flow_state = .greeting from hc.1) (by rw [hfs]; decide)
      · rfl
    have hcp : calendarPre (pushHist m inp) inp.calSlots = pushHist m inp := by
      unfold calendarPre
      split
      · rename_i hc
        exact absurd (show m.flow_state = .calendar_check from hc.1) (by rw [hfs]; decide)
      · rfl
    have hsm : smStep (pushHist m inp) inp = stepOfferSlots (pushHist m inp) inp.speech := by
      unfold smStep
      split
      · rename_i hc
        rw [hact] at hc
        exact absurd hc (by simp)
      · have : (pushHist m inp).flow_state = .offer_slots := hfs
        simp only [this]
    have hacc2 : detectSlotAcceptance inp.speech (pushHist m inp).offered_slots = none := hacc
    have hx := stepOfferSlots_reject (pushHist m inp) inp.speech hacc2 htime hrej
    rw [processTurn_memory_eq, endP_soa, dispM_soa, dispB_soa,
        endP_fs, dispM_fs, dispB_fs, hred, regen_soa, regen_fs, hg, hcp, hsm]
    exact ⟨hx.1, hx.2.1, hx.2.2⟩

/-- A concrete record in offer_slots with three rejections already
recorded and one earliest slot on offer. -/
def memOffer3 : Memory :=
  { initialMemory with
      flow_state := .offer_slots,
      slot_offer_attempt := 3,
      offered_slots := [⟨"2025-01-06T15:00:00Z".data, "Monday, January 6 at 10:00 AM".data⟩],
      history := [⟨.assistant, "I have Monday, January 6 at 10:00 AM available.".data⟩] }

/-- A concrete explicit-rejection turn. -/
def rejTurn : TurnInput :=
  ⟨"no".data, true, "Understood.".data, true, "Understood.".data, none, none⟩

theorem slot_rejection_capped_witness :
    initialMemory.slot_offer_attempt ≤ 4 ∧
    (processTurn memOffer3 rejTurn).memory.slot_offer_attempt = 4 ∧
    (processTurn memOffer3 rejTurn).memory.flow_state = .message_fallback_intro := by
  refine ⟨(slot_rejection_capped.1 initialMemory Reachable.init).1, ?_, ?_⟩
  · exact (slot_rejection_capped.2 memOffer3 rejTurn rfl rfl (by decide) (by decide)
      (by decide) (by decide)).1
  · exact (slot_rejection_capped.2 memOffer3 rejTurn rfl rfl (by decide) (by decide)
      (by decide) (by decide)).2.1 (by decide)

/-! ### Shared reduction lemmas for single-turn claims -/

theorem greetingStep_skip (m : Memory) (inp : TurnInput)
    (hg : m.flow_state ≠ .greeting) :
    greetingStep (pushHist m inp) = pushHist m inp := by
  unfold greetingStep
  split
  · rename_i hc
    exact absurd (show m.flow_state = .greeting from hc.1) hg
  · rfl

theorem calendarPre_skip (m : Memory) (inp : TurnInput)
    (hc : m.flow_state ≠ .calendar_check) :
    calendarPre (pushHist m inp) inp.calSlots = pushHist m inp := by
  unfold calendarPre
  split
  · rename_i hcond
    exact absurd (show m.flow_state = .calendar_check from hcond.1) hc
  · rfl

theorem tryPhase_noCal (m : Memory) (inp : TurnInput)
    (hg : m.flow_state ≠ .greeting)
    (hc : m.flow_state ≠ .calendar_check)
    (hok : inp.llmOk = true) :
    tryPhase m inp = regenPhase (smStep (pushHist m inp) inp) inp := by
  unfold tryPhase
  split
  · rename_i hcon
    rw [hok] at hcon
    exact absurd hcon.2 (by simp)
  · rw [greetingStep_skip m inp hg, calendarPre_skip m inp hc]

theorem smStep_offer (m : Memory) (inp : TurnInput)
    (hact : speechActive inp.speech = true)
    (hfs : m.flow_state = .offer_slots) :
    smStep (pushHist m inp) inp = stepOfferSlots (pushHist m inp) inp.speech := by
  unfold smStep
  split
  · rename_i hcon
    rw [hact] at hcon
    exact absurd hcon (by simp)
  · simp only [show (pushHist m inp).flow_state = .offer_slots from hfs]

theorem smStep_apptConfirm (m : Memory) (inp : TurnInput)
    (hact : speechActive inp.speech = true)
    (hfs : m.flow_state = .appointment_confirm) :
    smStep (pushHist m inp) inp = stepApptConfirm (pushHist m inp) (toLower inp.speech) := by
  unfold smStep
  split
  · rename_i hcon
    rw [hact] at hcon
    exact absurd hcon (by simp)
  · simp only [show (pushHist m inp).flow_state = .appointment_confirm from hfs]

theorem smStep_msgConfirm (m : Memory) (inp : TurnInput)
    (hact : speechActive inp.speech = true)
    (hfs : m.flow_state = .message_confirm) :
    smStep (pushHist m inp) inp = stepMsgConfirm (pushHist m inp) (toLower inp.speech) := by
  unfold smStep
  split
  · rename_i hcon
    rw [hact] at hcon
    exact absurd hcon (by simp)
  · simp only [show (pushHist m inp).flow_state = .message_confirm from hfs]

theorem smStep_apptPhone (m : Memory) (inp : TurnInput)
    (hact : speechActive inp.speech = true)
    (hfs : m.flow_state = .appointment_phone) :
    smStep (pushHist m inp) inp = stepApptPhone (pushHist m inp) inp.speech := by
  unfold smStep
  split
  · rename_i hcon
    rw [hact] at hcon
    exact absurd hcon (by simp)
  · simp only [show (pushHist m inp).flow_state = .appointment_phone from hfs]

theorem smStep_msgPhone (m : Memory) (inp : TurnInput)
    (hact : speechActive inp.speech = true)
    (hfs : m.flow_state = .message_phone) :
    smStep (pushHist m inp) inp = stepMsgPhone (pushHist m inp) inp.speech := by
  unfold smStep
  split
  · rename_i hcon
    rw [hact] at hcon
    exact absurd hcon (by simp)
  · simp only [show (pushHist m inp).flow_state = .message_phone from hfs]

/-! ### C3: ambiguity in offer_slots never counts against the caller -/

/-- C3: for every caller utterance in the offer_slots state that is
neither a clear acceptance, an explicit rejection, nor a concrete time
preference, the turn leaves slot_offer_attempt unchanged, the state
remains offer_slots, and the offered slot list is untouched, so the
same earliest slot is re-offered and ambiguity never counts against the
caller. -/
theorem ambiguity_no_penalty (m : Memory) (inp : TurnInput)
    (hfs : m.flow_state = .offer_slots)
    (hok : inp.llmOk = true)
    (hact : speechActive inp.speech = true)
    (hacc : detectSlotAcceptance inp.speech m.offered_slots = none)
    (htime : timePrefPat (toLower inp.speech) = false)
    (hrej : rejectionPat (toLower inp.speech) = false) :
    (processTurn m inp).memory.flow_state = .offer_slots ∧
    (processTurn m inp).memory.slot_offer_attempt = m.slot_offer_attempt ∧
    (processTurn m inp).memory.offered_slots = m.offered_slots := by
  have hred := tryPhase_noCal m inp (by rw [hfs]; decide) (by rw [hfs]; decide) hok
  have hsm := smStep_offer m inp hact hfs
  have hacc2 : detectSlotAcceptance inp.speech (pushHist m inp).offered_slots = none := hacc
  have hamb := stepOfferSlots_ambiguous (pushHist m inp) inp.speech hacc2 htime hrej
  rw [processTurn_memory_eq, endP_fs, dispM_fs, dispB_fs,
      endP_soa, dispM_soa, dispB_soa, endP_os, dispM_os, dispB_os,
      hred, regen_fs, regen_soa, regen_os, hsm, hamb]
  exact ⟨rfl, rfl, rfl⟩

/-- A concrete record in offer_slots with one earliest slot on offer. -/
def memOffer1 : Memory :=
  { initialMemory with
      flow_state := .offer_slots,
      slot_offer_attempt := 1,
      offered_slots := [⟨"2025-01-06T15:00:00Z".data, "Monday, January 6 at 10:00 AM".data⟩],
      history := [⟨.assistant, "I have Monday, January 6 at 10:00 AM available.".data⟩] }

/-- A concrete ambiguous utterance. -/
def ambTurn : TurnInput :=
  ⟨"hello hello".data, true, "Let me repeat the offer.".data, true,
   "Let me repeat the offer.".data, none, none⟩

theorem ambiguity_no_penalty_witness :
    (processTurn memOffer1 ambTurn).memory.flow_state = .offer_slots ∧
    (processTurn memOffer1 ambTurn).memory.slot_offer_attempt = 1 ∧
    (processTurn memOffer1 ambTurn).memory.offered_slots = memOffer1.offered_slots := by
  exact ambiguity_no_penalty memOffer1 ambTurn rfl rfl (by decide) (by decide)
    (by decide) (by decide)

/-! ### C4: the inquiry and office-hours branch never feeds the booking branch -/

/-- C4: once intent has been classified as inquiry or
office-hours-question, a turn handled in the inquiry_intent,
office_hours_message or office_hours_question state can only move to
message_first_name (the message branch), to office_hours_declined (the
declined terminal), or stay in the same state: no utterance handled in
those states ever transitions directly into a booking-branch state. -/
theorem inquiry_branch_isolated (m : Memory) (inp : TurnInput)
    (h : m.flow_state = .inquiry_intent ∨ m.flow_state = .office_hours_message ∨
         m.flow_state = .office_hours_question) :
    (processTurn m inp).memory.flow_state = .message_first_name ∨
    (processTurn m inp).memory.flow_state = .office_hours_declined ∨
    (processTurn m inp).memory.flow_state = m.flow_state := by
  rw [processTurn_memory_eq, endP_fs, dispM_fs, dispB_fs]
  unfold tryPhase
  split
  · right; right; rfl
  · rw [regen_fs]
    rcases h with hfs | hfs | hfs <;>
      rw [greetingStep_skip m inp (by rw [hfs]; decide),
          calendarPre_skip m inp (by rw [hfs]; decide)] <;>
      unfold smStep <;>
      split
    case _ => right; right; rfl
    case _ =>
      simp only [show (pushHist m inp).flow_state = .inquiry_intent from hfs]
      unfold stepInquiry
      (repeat' split)
      · left; rfl
      · right; left; rfl
      · left; rfl
    case _ => right; right; rfl
    case _ =>
      simp only [show (pushHist m inp).flow_state = .office_hours_message from hfs]
      unfold stepOfficeHoursMsg
      (repeat' split)
      · left; rfl
      · right; left; rfl
      · right; right; rw [hfs]
      · left; rfl
    case _ => right; right; rfl
    case _ =>
      simp only [show (pushHist m inp).flow_state = .office_hours_question from hfs]
      unfold stepOfficeHoursQ
      (repeat' split)
      · left; rfl
      · right; left; rfl
      · left; rfl

/-- A concrete record sitting in the inquiry branch. -/
def memInquiry : Memory :=
  { initialMemory with
      flow_state := .inquiry_intent,
      intent := some .inquiry,
      history := [⟨.assistant, "Our office hours are Tuesday-Thursday.".data⟩] }

/-- A concrete affirmative turn ("yes" would accept a slot elsewhere). -/
def yesTurn : TurnInput :=
  ⟨"yes".data, true, "Certainly.".data, true, "Certainly.".data, none, none⟩

theorem inquiry_branch_isolated_witness :
    ((processTurn memInquiry yesTurn).memory.flow_state = .message_first_name ∨
     (processTurn memInquiry yesTurn).memory.flow_state = .office_hours_declined ∨
     (processTurn memInquiry yesTurn).memory.flow_state = memInquiry.flow_state) ∧
    (processTurn memInquiry yesTurn).memory.flow_state = .message_first_name := by
  exact ⟨inquiry_branch_isolated memInquiry yesTurn (Or.inl rfl), by decide⟩

/-! ### C5: the final confirmation states assume yes on ambiguity -/

/-- A concrete record at the appointment confirmation summary. -/
def memApptCnf : Memory :=
  { initialMemory with
      flow_state := .appointment_confirm,
      first_name := some ("John".data), last_name := some ("Smith".data),
      phone := some ("5551234567".data), email := some ("john@gmail.com".data),
      previous_client := some ("No".data), referral_source := some ("friend".data),
      call_reason := some ("tax help".data),
      history := [⟨.assistant, "Is all of that correct?".data⟩] }

/-- A concrete record at the message confirmation summary. -/
def memMsgCnf : Memory :=
  { initialMemory with
      flow_state := .message_confirm,
      first_name := some ("John".data), last_name := some ("Smith".data),
      phone := some ("5551234567".data), email := some ("john@gmail.com".data),
      message_content := some ("please call me back".data),
      history := [⟨.assistant, "Is that correct?".data⟩] }

/-- A concrete ambiguous confirmation response (neither an explicit
affirmative nor an explicit negative of the confirmation regexes). -/
def maybeTurn : TurnInput :=
  ⟨"maybe".data, true, "Confirmed.".data, true, "Confirmed.".data, none, none⟩

/-- C5 counterexample: the claim says an ambiguous response at the final
confirmation is re-asked and never advances to the complete state by
assuming confirmation, but on the ambiguous utterance maybe both
appointment_confirm and message_confirm advance straight to their
complete states. -/
theorem confirm_reask_cex :
    (processTurn memApptCnf maybeTurn).memory.flow_state = .appointment_complete ∧
    (processTurn memMsgCnf maybeTurn).memory.flow_state = .message_complete := by
  constructor <;> decide

/-- C5 amended: in appointment_confirm and message_confirm, an explicit
affirmative reaches the complete state, an explicit negative restarts
data collection from the first field, and any other (ambiguous)
response is assumed to be a confirmation: it also advances to the
complete state rather than re-asking the summary. -/
theorem confirm_assume_yes_policy (m : Memory) (inp : TurnInput)
    (hok : inp.llmOk = true) (hact : speechActive inp.speech = true) :
    (m.flow_state = .appointment_confirm →
      (containsAny confirmYesWords (toLower inp.speech) = true →
        (processTurn m inp).memory.flow_state = .appointment_complete) ∧
      (containsAny confirmYesWords (toLower inp.speech) = false →
        containsAny confirmNoWords (toLower inp.speech) = true →
        (processTurn m inp).memory.flow_state = .appointment_first_name) ∧
      (containsAny confirmYesWords (toLower inp.speech) = false →
        containsAny confirmNoWords (toLower inp.speech) = false →
        (processTurn m inp).memory.flow_state = .appointment_complete)) ∧
    (m.flow_state = .message_confirm →
      (containsAny confirmYesWords (toLower inp.speech) = true →
        (processTurn m inp).memory.flow_state = .message_complete) ∧
      (containsAny confirmYesWords (toLower inp.speech) = false →
        containsAny confirmNoWords (toLower inp.speech) = true →
        (processTurn m inp).memory.flow_state = .message_first_name) ∧
      (containsAny confirmYesWords (toLower inp.speech) = false →
        containsAny confirmNoWords (toLower inp.speech) = false →
        (processTurn m inp).memory.flow_state = .message_complete)) := by
  constructor
  · intro hfs
    have hred := tryPhase_noCal m inp (by rw [hfs]; decide) (by rw [hfs]; decide) hok
    have hsm := smStep_apptConfirm m inp hact hfs
    rw [processTurn_memory_eq, endP_fs, dispM_fs, dispB_fs, hred, regen_fs, hsm]
    unfold stepApptConfirm
    refine ⟨fun hy => ?_, fun hy hn => ?_, fun hy hn => ?_⟩
    · rw [if_pos hy]
    · rw [if_neg (by simp [hy]), if_pos hn]
    · rw [if_neg (by simp [hy]), if_neg (by simp [hn])]
  · intro hfs
    have hred := tryPhase_noCal m inp (by rw [hfs]; decide) (by rw [hfs]; decide) hok
    have hsm := smStep_msgConfirm m inp hact hfs
    rw [processTurn_memory_eq, endP_fs, dispM_fs, dispB_fs, hred, regen_fs, hsm]
    unfold stepMsgConfirm
    refine ⟨fun hy => ?_, fun hy hn => ?_, fun hy hn => ?_⟩
    · rw [if_pos hy]
    · rw [if_neg (by simp [hy]), if_pos hn]
    · rw [if_neg (by simp [hy]), if_neg (by simp [hn])]

/-- A concrete explicit-negative confirmation response. -/
def noTurn : TurnInput :=
  ⟨"no".data, true, "Let us start over.".data, true, "Let us start over.".data, none, none⟩

theorem confirm_assume_yes_policy_witness :
    (processTurn memApptCnf yesTurn).memory.flow_state = .appointment_complete ∧
    (processTurn memMsgCnf noTurn).memory.flow_state = .message_first_name ∧
    (processTurn memMsgCnf maybeTurn).memory.flow_state = .message_complete := by
  exact ⟨((confirm_assume_yes_policy memApptCnf yesTurn rfl (by decide)).1 rfl).1 (by decide),
    ((confirm_assume_yes_policy memMsgCnf noTurn rfl (by decide)).2 rfl).2.1
      (by decide) (by decide),
    ((confirm_assume_yes_policy memMsgCnf maybeTurn rfl (by decide)).2 rfl).2.2
      (by decide) (by decide)⟩

/-! ### C6: a rejected summary clears only part of the collected fields -/

/-- C6 counterexample: the claim says an explicit negative at the final
confirmation clears ALL previously collected fields for the branch, so
no collected value survives; but after the explicit negative no in
message_confirm the collection restarts while the collected last name
and message body survive untouched (and in appointment_confirm the
previous-client flag, referral source and call reason survive). -/
theorem confirm_clear_all_cex :
    (processTurn memMsgCnf noTurn).memory.flow_state = .message_first_name ∧
    (processTurn memMsgCnf noTurn).memory.last_name = some ("Smith".data) ∧
    (processTurn memMsgCnf noTurn).memory.message_content = some ("please call me back".data) ∧
    (processTurn memApptCnf noTurn).memory.flow_state = .appointment_first_name ∧
    (processTurn memApptCnf noTurn).memory.referral_source = some ("friend".data) ∧
    (processTurn memApptCnf noTurn).memory.call_reason = some ("tax help".data) := by
  refine ⟨?_, ?_, ?_, ?_, ?_, ?_⟩ <;> decide

/-- C6 amended: an explicit negative at the final confirmation restarts
data collection from the first field, but clears only first name, phone
and email in the message branch (the last name and the message body
survive), and only first name, last name, phone and email in the
appointment branch (the previous-client flag, the referral source and
the call reason survive). -/
theorem confirm_negative_partial_clear (m : Memory) (inp : TurnInput)
    (hok : inp.llmOk = true) (hact : speechActive inp.speech = true)
    (hy : containsAny confirmYesWords (toLower inp.speech) = false)
    (hn : containsAny confirmNoWords (toLower inp.speech) = true) :
    (m.flow_state = .message_confirm →
      (processTurn m inp).memory.flow_state = .message_first_name ∧
      (processTurn m inp).memory.first_name = none ∧
      (processTurn m inp).memory.phone = none ∧
      (processTurn m inp).memory.email = none ∧
      (processTurn m inp).memory.last_name = m.last_name ∧
      (processTurn m inp).memory.message_content = m.message_content) ∧
    (m.flow_state = .appointment_confirm →
      (processTurn m inp).memory.flow_state = .appointment_first_name ∧
      (processTurn m inp).memory.first_name = none ∧
      (processTurn m inp).memory.last_name = none ∧
      (processTurn m inp).memory.phone = none ∧
      (processTurn m inp).memory.email = none ∧
      (processTurn m inp).memory.previous_client = m.previous_client ∧
      (processTurn m inp).memory.referral_source = m.referral_source ∧
      (processTurn m inp).memory.call_reason = m.call_reason) := by
  constructor
  · intro hfs
    have hred := tryPhase_noCal m inp (by rw [hfs]; decide) (by rw [hfs]; decide) hok
    have hsm := smStep_msgConfirm m inp hact hfs
    have hstep : stepMsgConfirm (pushHist m inp) (toLower inp.speech) =
        { pushHist m inp with flow_state := .message_first_name,
                              first_name := none, phone := none, email := none } := by
      unfold stepMsgConfirm
      rw [if_neg (by simp [hy]), if_pos hn]
    rw [processTurn_memory_eq, endP_fs, dispM_fs, dispB_fs,
        endP_fn, dispM_fn, dispB_fn, endP_ph, dispM_ph, dispB_ph,
        endP_em, dispM_em, dispB_em, endP_ln, dispM_ln, dispB_ln,
        endP_mc, dispM_mc, dispB_mc, hred,
        regen_fs, regen_fn, regen_ph, regen_em, regen_ln, regen_mc, hsm, hstep]
    exact ⟨rfl, rfl, rfl, rfl, rfl, rfl⟩
  · intro hfs
    have hred := tryPhase_noCal m inp (by rw [hfs]; decide) (by rw [hfs]; decide) hok
    have hsm := smStep_apptConfirm m inp hact hfs
    have hstep : stepApptConfirm (pushHist m inp) (toLower inp.speech) =
        { pushHist m inp with flow_state := .appointment_first_name,
                              first_name := none, last_name := none,
                              phone := none, email := none } := by
      unfold stepApptConfirm
      rw [if_neg (by simp [hy]), if_pos hn]
    rw [processTurn_memory_eq, endP_fs, dispM_fs, dispB_fs,
        endP_fn, dispM_fn, dispB_fn, endP_ln, dispM_ln, dispB_ln,
        endP_ph, dispM_ph, dispB_ph, endP_em, dispM_em, dispB_em,
        endP_pc, dispM_pc, dispB_pc, endP_rs, dispM_rs, dispB_rs,
        endP_cr, dispM_cr, dispB_cr, hred,
        regen_fs, regen_fn, regen_ln, regen_ph, regen_em, regen_pc, regen_rs, regen_cr,
        hsm, hstep]
    exact ⟨rfl, rfl, rfl, rfl, rfl, rfl, rfl, rfl⟩

theorem confirm_negative_partial_clear_witness :
    (processTurn memMsgCnf noTurn).memory.flow_state = .message_first_name ∧
    (processTurn memMsgCnf noTurn).memory.first_name = none ∧
    (processTurn memMsgCnf noTurn).memory.last_name = memMsgCnf.last_name ∧
    (processTurn memApptCnf noTurn).memory.flow_state = .appointment_first_name ∧
    (processTurn memApptCnf noTurn).memory.call_reason = memApptCnf.call_reason := by
  have h1 := (confirm_negative_partial_clear memMsgCnf noTurn rfl (by decide)
    (by decide) (by decide)).1 rfl
  have h2 := (confirm_negative_partial_clear memApptCnf noTurn rfl (by decide)
    (by decide) (by decide)).2 rfl
  exact ⟨h1.1, h1.2.1, h1.2.2.2.2.1, h2.1, h2.2.2.2.2.2.2.2⟩

/-! ### C7: the phone handlers store the full digit string, without de-duplication -/

/-- A concrete record at the appointment phone question. -/
def memApptPhone : Memory :=
  { initialMemory with
      flow_state := .appointment_phone,
      first_name := some ("John".data), last_name := some ("Smith".data),
      history := [⟨.assistant, "And your phone number?".data⟩] }

/-- A concrete turn whose transcript repeats the same ten-digit phone
number twice. -/
def dupPhoneTurn : TurnInput :=
  ⟨"555-123-4567, that is 555-123-4567.".data, true, "Thank you.".data, true,
   "Thank you.".data, none, none⟩

/-- C7 counterexample: the claim says that when the transcript contains
the same ten-digit number twice, the phone-collection states keep only
the last ten digits; but the appointment_phone handler stores the whole
stripped twenty-digit string. -/
theorem phone_dedup_cex :
    digitsOf dupPhoneTurn.speech =
      "5551234567".data ++ "5551234567".data ∧
    (processTurn memApptPhone dupPhoneTurn).memory.phone =
      some ("55512345675551234567".data) ∧
    some ("55512345675551234567".data) ≠ some ("5551234567".data) := by
  refine ⟨?_, ?_, ?_⟩ <;> decide

/-- C7 amended: the phone handlers strip the non-digits and, whenever at
least ten digits remain, store the whole digit string unchanged: a
transcript whose digit content is a ten-digit number spoken twice is
stored as the full twenty-digit concatenation (no last-10 or last-11
truncation is applied). -/
theorem phone_full_digits_kept (m : Memory) (inp : TurnInput) (d : Str)
    (hok : inp.llmOk = true) (hact : speechActive inp.speech = true)
    (hd : digitsOf inp.speech = d ++ d) (hlen : d.length = 10) :
    (m.flow_state = .appointment_phone →
      (processTurn m inp).memory.phone = some (d ++ d) ∧
      (processTurn m inp).memory.flow_state = .appointment_email) ∧
    (m.flow_state = .message_phone →
      (processTurn m inp).memory.phone = some (d ++ d) ∧
      (processTurn m inp).memory.flow_state = .message_email) := by
  have hcond : (!(digitsOf inp.speech).isEmpty) = true ∧
      (digitsOf inp.speech).length ≥ 10 := by
    rw [hd]
    constructor
    · cases hdn : d with
      | nil => rw [hdn] at hlen; simp at hlen
      | cons a l => simp
    · simp [hlen]
  constructor
  · intro hfs
    have hred := tryPhase_noCal m inp (by rw [hfs]; decide) (by rw [hfs]; decide) hok
    have hsm := smStep_apptPhone m inp hact hfs
    have hstep : stepApptPhone (pushHist m inp) inp.speech =
        { pushHist m inp with phone := some (digitsOf inp.speech),
                              flow_state := .appointment_email, phone_retry := 0 } := by
      unfold stepApptPhone
      rw [if_pos hcond]
    rw [processTurn_memory_eq, endP_ph, dispM_ph, dispB_ph, endP_fs, dispM_fs, dispB_fs,
        hred, regen_ph, regen_fs, hsm, hstep]
    exact ⟨by rw [← hd], rfl⟩
  · intro hfs
    have hred := tryPhase_noCal m inp (by rw [hfs]; decide) (by rw [hfs]; decide) hok
    have hsm := smStep_msgPhone m inp hact hfs
    have hstep : stepMsgPhone (pushHist m inp) inp.speech =
        { pushHist m inp with phone := some (digitsOf inp.speech),
                              flow_state := .message_email, phone_retry := 0 } := by
      unfold stepMsgPhone
      rw [if_pos hcond]
    rw [processTurn_memory_eq, endP_ph, dispM_ph, dispB_ph, endP_fs, dispM_fs, dispB_fs,
        hred, regen_ph, regen_fs, hsm, hstep]
    exact ⟨by rw [← hd], rfl⟩

theorem phone_full_digits_kept_witness :
    (processTurn memApptPhone dupPhoneTurn).memory.phone =
      some ("5551234567".data ++ "5551234567".data) ∧
    (processTurn memApptPhone dupPhoneTurn).memory.flow_state = .appointment_email := by
  exact (phone_full_digits_kept memApptPhone dupPhoneTurn ("5551234567".data)
    rfl (by decide) (by decide) (by decide)).1 rfl

/-! ### C8: extractEmail also requires a period after the at sign -/

/-- C8 counterexample: the claim says the presence of an at sign in the
normalised candidate is sufficient for extractEmail to accept, and that
a candidate with a missing domain (no dot after the at sign) is still
returned; but on john at-sign gmailcom the normalised candidate
contains the at sign and extractEmail nevertheless rejects it as
empty. -/
theorem email_at_not_sufficient_cex :
    emailNormalize ("john@gmailcom".data) = "john@gmailcom".data ∧
    ("john@gmailcom".data).contains '@' = true ∧
    extractEmail ("john@gmailcom".data) = [] := by
  refine ⟨?_, ?_, ?_⟩ <;> decide

/-- C8 amended: extractEmail accepts the normalised candidate only when
it contains an at sign AND a period separated from the at sign by at
least one character (validation @.+\.): every non-empty result contains
an at sign and such a domain period, a candidate without the domain
period is rejected as the empty string, and a full address such as
john at-sign gmail.com is returned verbatim. -/
theorem email_requires_domain_dot :
    (∀ s : Str, extractEmail s ≠ [] →
      extractEmail s = emailNormalize s ∧
      (extractEmail s).contains '@' = true ∧
      atDotTest (extractEmail s) = true) ∧
    (∀ s : Str, atDotTest (emailNormalize s) = false → extractEmail s = []) ∧
    extractEmail ("john@gmail.com".data) = "john@gmail.com".data := by
  refine ⟨?_, ?_, by decide⟩
  · intro s hne
    by_cases hcond : ((emailNormalize s).contains '@' && atDotTest (emailNormalize s)) = true
    · have he : extractEmail s = emailNormalize s := by
        unfold extractEmail
        rw [if_pos hcond]
      rw [Bool.and_eq_true] at hcond
      exact ⟨he, by rw [he]; exact hcond.1, by rw [he]; exact hcond.2⟩
    · exfalso
      apply hne
      unfold extractEmail
      rw [if_neg hcond]
  · intro s hdot
    unfold extractEmail
    rw [if_neg (by simp [hdot])]

theorem email_requires_domain_dot_witness :
    extractEmail ("john@gmail.com".data) = emailNormalize ("john@gmail.com".data) ∧
    extractEmail ("john@gmailcom".data) = [] := by
  exact ⟨(email_requires_domain_dot.1 ("john@gmail.com".data) (by decide)).1,
    email_requires_domain_dot.2.1 ("john@gmailcom".data) (by decide)⟩

/-! ### C9: extractName does not join letter-by-letter spelling -/

/-- C9 counterexample: the claim says the letter-spelled input
J. O. H. N. is detected as spelling and normalises to the same result
as the word John; but extractName performs no such joining and the two
results differ. -/
theorem spelled_name_not_joined_cex :
    extractName ("J. O. H. N.".data) ≠ extractName ("John".data) := by
  decide

/-- C9 amended: extractName only strips filler prefixes, one trailing
punctuation mark and redundant whitespace; it performs no
letter-by-letter joining, so the spelled input J. O. H. N. yields the
cleaned token sequence J. O. H. N while the word John yields John. -/
theorem spelled_name_cleaned_form :
    extractName ("J. O. H. N.".data) = "J. O. H. N".data ∧
    extractName ("John".data) = "John".data := by
  constructor <;> decide

/-! ### C10: webhook payloads fall back to the caller id for the phone field -/

/-- C10: in both outbound dispatch payloads the phone field is the
collected phone number when a non-empty one was captured, and otherwise
falls back to the transport-provided caller id (req.body.From), so a
call that reaches a terminal dispatch without a collected phone still
carries the originating number. -/
theorem payload_phone_fallback (m : Memory) (callerFrom : Str) :
    (∀ p : Str, m.phone = some p → p ≠ [] →
      apptPayloadPhone m callerFrom = p ∧ msgPayloadPhone m callerFrom = p) ∧
    ((m.phone = none ∨ m.phone = some []) →
      apptPayloadPhone m callerFrom = callerFrom ∧
      msgPayloadPhone m callerFrom = callerFrom) := by
  constructor
  · intro p hp hne
    unfold apptPayloadPhone msgPayloadPhone
    rw [hp]
    constructor <;> simp [List.isEmpty_iff, hne]
  · rintro (hp | hp) <;>
      (unfold apptPayloadPhone msgPayloadPhone; rw [hp]) <;>
      exact ⟨rfl, rfl⟩

theorem payload_phone_fallback_witness :
    apptPayloadPhone ({ initialMemory with phone := some ("5551234567".data) }) ("+15550000000".data)
      = "5551234567".data ∧
    apptPayloadPhone initialMemory ("+15550000000".data) = "+15550000000".data ∧
    msgPayloadPhone initialMemory ("+15550000000".data) = "+15550000000".data := by
  refine ⟨(payload_phone_fallback _ _ |>.1 ("5551234567".data) rfl (by decide)).1, ?_, ?_⟩
  · exact (payload_phone_fallback initialMemory ("+15550000000".data) |>.2 (Or.inl rfl)).1
  · exact (payload_phone_fallback initialMemory ("+15550000000".data) |>.2 (Or.inl rfl)).2

end AhadVoice
